import Mathlib

/- Shallow embedding of net/cert/pki/path_builder.cc (X.509 certificate path
building): the data model, the issuer prioritization order, the per-certificate
issuer iterator (CertIssuersIter), the resumable depth-first path iterator
(CertPathIter::GetNextPath) and the orchestrating builder (CertPathBuilder::Run).

Machine integers are modelled as Nat; the shared iteration counter, a uint32_t
in the source, is modelled with an explicit wrap-around modulo 2^32. Opaque
certificate fields (normalized names, SPKI, DER bytes, key identifiers, times)
are modelled as Nat values, since the search only compares them for equality
and order. The wall clock is modelled by an explicit current-time value in the
configuration. The `while (true)` loop of GetNextPath is modelled with an
explicit fuel parameter; all definitions are executable. -/

namespace PathBuilder


/-- Certificate trust classification. Modelled from the spec: the enum lives in
net/cert/pki/trust_store.h, which is not among the sources here; the five
enumerators are exactly those matched on in path_builder.cc. -/
inductive CertificateTrustType where
  | TRUSTED_ANCHOR
  | TRUSTED_ANCHOR_WITH_EXPIRATION
  | TRUSTED_ANCHOR_WITH_CONSTRAINTS
  | DISTRUSTED
  | UNSPECIFIED
deriving DecidableEq

/-- Trust attached to one certificate (trust_store.h; only the type field is
observed by path_builder.cc). -/
structure CertificateTrust where
  type : CertificateTrustType
deriving DecidableEq

/-- Modelled from the spec: CertificateTrust::ForUnspecified() from
trust_store.h, the "no trust information" classification. -/
def CertificateTrust.ForUnspecified : CertificateTrust :=
  ⟨.UNSPECIFIED⟩

/-- Modelled from the spec: CertificateTrust::HasUnspecifiedTrust() from
trust_store.h, true when the classification is Unspecified. -/
def CertificateTrust.HasUnspecifiedTrust (t : CertificateTrust) : Bool :=
  decide (t.type = .UNSPECIFIED)

/-- The three trusted-anchor variants, as matched together by every switch in
path_builder.cc. -/
def CertificateTrustType.isAnchor : CertificateTrustType → Bool
  | .TRUSTED_ANCHOR => true
  | .TRUSTED_ANCHOR_WITH_EXPIRATION => true
  | .TRUSTED_ANCHOR_WITH_CONSTRAINTS => true
  | .DISTRUSTED => false
  | .UNSPECIFIED => false

/-- An immutable parsed certificate, reduced to the accessor fields read by
path_builder.cc. `authority_key_identifier` is `some k` when the extension is
present, where `k` is in turn `some kid` when the optional keyIdentifier field
inside it is present; `subject_key_identifier` is present or absent.
`subject_alt_names_value` models subject_alt_names_extension().value, which is
the empty string when the certificate has no subjectAltName extension. -/
structure ParsedCertificate where
  der_cert : Nat
  normalized_subject : Nat
  normalized_issuer : Nat
  subject_alt_names_value : Nat
  spki_tlv : Nat
  validity_not_before : Nat
  validity_not_after : Nat
  authority_key_identifier : Option (Option Nat)
  subject_key_identifier : Option Nat
deriving DecidableEq

/-- KeyIdentifierMatch (path_builder.cc:76-85). -/
inductive KeyIdentifierMatch where
  | kMatch
  | kNoData
  | kMismatch
deriving DecidableEq

/-- CalculateKeyIdentifierMatch (path_builder.cc:91-111). -/
def CalculateKeyIdentifierMatch (target issuer : ParsedCertificate) :
    KeyIdentifierMatch :=
  match target.authority_key_identifier with
  | none => .kNoData
  | some aki =>
    match aki, issuer.subject_key_identifier with
    | some kid, some skid => if kid ≠ skid then .kMismatch else .kMatch
    | _, _ => .kNoData

/-- TrustAndKeyIdentifierMatchToOrder (path_builder.cc:116-163); lower values
are higher priority. -/
def TrustAndKeyIdentifierMatchToOrder (target issuer : ParsedCertificate)
    (issuer_trust : CertificateTrust) : Nat :=
  match issuer_trust.type, CalculateKeyIdentifierMatch target issuer with
  | .TRUSTED_ANCHOR, .kMatch => 0
  | .TRUSTED_ANCHOR_WITH_EXPIRATION, .kMatch => 0
  | .TRUSTED_ANCHOR_WITH_CONSTRAINTS, .kMatch => 0
  | .TRUSTED_ANCHOR, .kNoData => 1
  | .TRUSTED_ANCHOR_WITH_EXPIRATION, .kNoData => 1
  | .TRUSTED_ANCHOR_WITH_CONSTRAINTS, .kNoData => 1
  | .TRUSTED_ANCHOR, .kMismatch => 4
  | .TRUSTED_ANCHOR_WITH_EXPIRATION, .kMismatch => 4
  | .TRUSTED_ANCHOR_WITH_CONSTRAINTS, .kMismatch => 4
  | .UNSPECIFIED, .kMatch => 2
  | .UNSPECIFIED, .kNoData => 3
  | .UNSPECIFIED, .kMismatch => 5
  | .DISTRUSTED, .kMatch => 6
  | .DISTRUSTED, .kNoData => 7
  | .DISTRUSTED, .kMismatch => 8

/-- IssuerEntry (path_builder.cc:70-74); the certificate together with its
trust and its precomputed priority key. -/
structure IssuerEntry where
  cert : ParsedCertificate
  trust : CertificateTrust
  trust_and_key_id_match_ordering : Nat
deriving DecidableEq

/-- C++ comparison of two bool values: false < true. -/
def boolLtB (x y : Bool) : Bool := !x && y

/-- Lexicographic `operator<` on the quadruples built by std::tie in the
comparator of CertIssuersIter::SortRemainingIssuers (path_builder.cc:343-363).
Compares (a1, b1, c1, d1) < (a2, b2, c2, d2). -/
def tieLt4 (a1 : Nat) (b1 : Bool) (c1 d1 a2 : Nat) (b2 : Bool) (c2 d2 : Nat) :
    Bool :=
  if a1 < a2 then true
  else if a2 < a1 then false
  else if boolLtB b1 b2 then true
  else if boolLtB b2 b1 then false
  else if c1 < c2 then true
  else if c2 < c1 then false
  else decide (d1 < d2)

/-- Whether a certificate is self-issued (normalized subject equals normalized
issuer), as computed inside the sort comparator (path_builder.cc:348-351). -/
def selfIssued (c : ParsedCertificate) : Bool :=
  decide (c.normalized_subject = c.normalized_issuer)

/-- The strict comparator passed to std::stable_sort by
CertIssuersIter::SortRemainingIssuers (path_builder.cc:343-363). Note that the
std::tie trick puts issuer2's self-issued flag and validity dates on the
left-hand side, so for those components the larger value is preferred. -/
def issuerLt (issuer1 issuer2 : IssuerEntry) : Bool :=
  tieLt4 issuer1.trust_and_key_id_match_ordering (selfIssued issuer2.cert)
    issuer2.cert.validity_not_before issuer2.cert.validity_not_after
    issuer2.trust_and_key_id_match_ordering (selfIssued issuer1.cert)
    issuer1.cert.validity_not_before issuer1.cert.validity_not_after

/-- The non-strict order induced by `issuerLt`, used to state sortedness of a
stable sort with strict comparator `issuerLt`: `e1` may stay before `e2`
exactly when `e2` is not strictly smaller. -/
def issuerLe (issuer1 issuer2 : IssuerEntry) : Bool :=
  !(issuerLt issuer2 issuer1)

/-- Propositional form of the sort key ordering: entry 1 is strictly preferred
to entry 2 iff its priority value is smaller, or the priorities tie and
entry 1 is self-issued while entry 2 is not, or those tie as well and entry 1
has the later notBefore, or finally the later notAfter. -/
def issuerPreferred (o1 : Nat) (s1 : Bool) (b1 a1 o2 : Nat) (s2 : Bool)
    (b2 a2 : Nat) : Prop :=
  o1 < o2 ∨ (o1 = o2 ∧ ((s1 = true ∧ s2 = false) ∨
    (s1 = s2 ∧ (b2 < b1 ∨ (b2 = b1 ∧ a2 < a1)))))

/-- Spec-side rendition of the nine-entry priority table, written directly from
the spec's list "trusted-anchor+Match, trusted-anchor+NoData, unspecified+Match,
unspecified+NoData, trusted-anchor+Mismatch, unspecified+Mismatch,
distrusted+Match, distrusted+NoData, distrusted+Mismatch" (highest priority
first, so positions are the order values). -/
def specTrustMatchOrder (t : CertificateTrustType) (m : KeyIdentifierMatch) :
    Nat :=
  if t.isAnchor then
    match m with
    | .kMatch => 0
    | .kNoData => 1
    | .kMismatch => 4
  else if t = .UNSPECIFIED then
    match m with
    | .kMatch => 2
    | .kNoData => 3
    | .kMismatch => 5
  else
    match m with
    | .kMatch => 6
    | .kNoData => 7
    | .kMismatch => 8

/-- A CertIssuerSource: synchronous results plus the finite sequence of batches
its asynchronous cursor yields. An empty batch signals that cursor's
exhaustion; a source that hands out no Request at all is modelled by an empty
batch sequence. -/
structure CertIssuerSource where
  syncGetIssuersOf : ParsedCertificate → List ParsedCertificate
  asyncBatches : ParsedCertificate → List (List ParsedCertificate)

/-- The external collaborators fixed for one build: the trust store and the
registered issuer sources. -/
structure SearchEnv where
  getTrust : ParsedCertificate → CertificateTrust
  cert_issuer_sources : List CertIssuerSource

/-- CertIssuersIter state (path_builder.cc:167-242). `pending_async_requests`
holds, for each outstanding asynchronous request, the batches not yet
consumed; requests already exhausted are dropped from the front, which models
the cur_async_request_ index. -/
structure CertIssuersIter where
  cert : ParsedCertificate
  issuers : List IssuerEntry
  cur_issuer : Nat
  skipped_issuer_count : Nat
  issuers_needs_sort : Bool
  present_issuers : List Nat
  did_initial_query : Bool
  did_async_issuer_query : Bool
  pending_async_requests : List (List (List ParsedCertificate))
deriving DecidableEq

/-- A freshly constructed CertIssuersIter (path_builder.cc:244-253). -/
def mkCertIssuersIter (cert : ParsedCertificate) : CertIssuersIter :=
  { cert := cert, issuers := [], cur_issuer := 0, skipped_issuer_count := 0,
    issuers_needs_sort := false, present_issuers := [],
    did_initial_query := false, did_async_issuer_query := false,
    pending_async_requests := [] }

/-- HasCurrentIssuer (path_builder.cc:199). -/
def CertIssuersIter.HasCurrentIssuer (st : CertIssuersIter) : Bool :=
  decide (st.cur_issuer < st.issuers.length)

/-- had_non_skipped_issuers (path_builder.cc:184-186). -/
def CertIssuersIter.had_non_skipped_issuers (st : CertIssuersIter) : Bool :=
  decide (st.skipped_issuer_count < st.issuers.length)

/-- increment_skipped_issuer_count (path_builder.cc:188). -/
def CertIssuersIter.increment_skipped_issuer_count (st : CertIssuersIter) :
    CertIssuersIter :=
  { st with skipped_issuer_count := st.skipped_issuer_count + 1 }

/-- AddIssuers (path_builder.cc:306-323): deduplicate by full DER, look up
trust, compute the priority key, append, and flag that a sort is needed. The
C++ range-for loop is written as structural recursion. -/
def CertIssuersIter.AddIssuers (env : SearchEnv) (st : CertIssuersIter) :
    List ParsedCertificate → CertIssuersIter
  | [] => st
  | issuer :: rest =>
    if issuer.der_cert ∈ st.present_issuers then
      CertIssuersIter.AddIssuers env st rest
    else
      CertIssuersIter.AddIssuers env
        { st with
          present_issuers := issuer.der_cert :: st.present_issuers,
          issuers := st.issuers ++
            [{ cert := issuer, trust := env.getTrust issuer,
               trust_and_key_id_match_ordering :=
                 TrustAndKeyIdentifierMatchToOrder st.cert issuer
                   (env.getTrust issuer) }],
          issuers_needs_sort := true } rest

/-- The sort relation handed to the stable sort: `a` may stay before `b` iff
`b` is not strictly preferred by the comparator (std::stable_sort semantics). -/
def issuerLeP (a b : IssuerEntry) : Prop := issuerLe a b = true

instance : DecidableRel issuerLeP := fun a b =>
  inferInstanceAs (Decidable (issuerLe a b = true))

/-- SortRemainingIssuers (path_builder.cc:339-366): stable-sort the entries
from cur_issuer_ onward by the comparator; entries before cur_issuer_ are left
untouched. A stable sort under a strict weak order has a unique result, so
std::stable_sort is embedded as insertion sort. -/
def CertIssuersIter.SortRemainingIssuers (st : CertIssuersIter) :
    CertIssuersIter :=
  if st.issuers_needs_sort then
    { st with
      issuers := st.issuers.take st.cur_issuer ++
        List.insertionSort issuerLeP (st.issuers.drop st.cur_issuer),
      issuers_needs_sort := false }
  else st

/-- The blocking async drain loop inside GetNextIssuer (path_builder.cc:274-285)
with explicit fuel; `batchesFuel` below always provides enough for the loop to
run to completion. An exhausted request (next batch empty, or no batches left)
is dropped and the drain moves to the next one. -/
def drainAsyncLoop (env : SearchEnv) :
    Nat → CertIssuersIter → List (List (List ParsedCertificate)) →
      CertIssuersIter
  | 0, st, reqs => { st with pending_async_requests := reqs }
  | fuel + 1, st, reqs =>
    match reqs with
    | [] => { st with pending_async_requests := [] }
    | req :: rest =>
      if st.HasCurrentIssuer then
        { st with pending_async_requests := req :: rest }
      else
        match req with
        | [] => drainAsyncLoop env fuel st rest
        | batch :: more =>
          if batch.isEmpty then drainAsyncLoop env fuel st rest
          else drainAsyncLoop env fuel
            (CertIssuersIter.AddIssuers env st batch) (more :: rest)

/-- Enough fuel to fully drain a request list: one step per request plus one
per batch. -/
def batchesFuel (reqs : List (List (List ParsedCertificate))) : Nat :=
  (reqs.map (fun r => r.length + 1)).sum

/-- The synchronous first-call query over every source (path_builder.cc:256-263). -/
def syncQueryAll (env : SearchEnv) :
    List CertIssuerSource → CertIssuersIter → CertIssuersIter
  | [], st => st
  | src :: rest, st =>
    syncQueryAll env rest
      (CertIssuersIter.AddIssuers env st (src.syncGetIssuersOf st.cert))

/-- The initial-query phase of GetNextIssuer (path_builder.cc:256-263): on the
first call, query every source synchronously. -/
def issuerInitialQuery (env : SearchEnv) (st0 : CertIssuersIter) :
    CertIssuersIter :=
  if st0.did_initial_query then st0
  else syncQueryAll env env.cert_issuer_sources
    { st0 with did_initial_query := true }

/-- The async phase of GetNextIssuer (path_builder.cc:265-286): if no issuer is
available, issue the asynchronous queries (once) and block draining the
pending cursors in order until an issuer appears or all are exhausted. -/
def issuerAsyncPhase (env : SearchEnv) (st1 : CertIssuersIter) :
    CertIssuersIter :=
  if st1.HasCurrentIssuer then st1
  else
    let st1q :=
      if st1.did_async_issuer_query then st1
      else
        { st1 with
          did_async_issuer_query := true,
          pending_async_requests :=
            env.cert_issuer_sources.map (fun src => src.asyncBatches st1.cert) }
    drainAsyncLoop env (batchesFuel st1q.pending_async_requests) st1q
      st1q.pending_async_requests

/-- GetNextIssuer (path_builder.cc:255-304): first call performs the
synchronous queries; if no unconsumed issuer is available, issue the async
queries (once) and drain their cursors in order; if an unconsumed issuer
remains, sort the remaining entries and return the head, advancing the cursor;
otherwise signal exhaustion with `none` (the cleared |*out|). -/
def CertIssuersIter.GetNextIssuer (env : SearchEnv) (st0 : CertIssuersIter) :
    CertIssuersIter × Option IssuerEntry :=
  let st2 := issuerAsyncPhase env (issuerInitialQuery env st0)
  if st2.HasCurrentIssuer then
    let st3 := st2.SortRemainingIssuers
    match st3.issuers.get? st3.cur_issuer with
    | some e => ({ st3 with cur_issuer := st3.cur_issuer + 1 }, some e)
    | none => (st3, none)
  else (st2, none)

/-- The tie-break ordering exactly as claim C2 words it: priority value
ascending, then an issuer that is NOT self-issued preferred over a self-issued
one, then later notBefore, then later notAfter. (Spec-side definition, for
comparison against the comparator actually in the code.) -/
def claimPreferredC2 (e1 e2 : IssuerEntry) : Prop :=
  e1.trust_and_key_id_match_ordering < e2.trust_and_key_id_match_ordering ∨
  (e1.trust_and_key_id_match_ordering = e2.trust_and_key_id_match_ordering ∧
    ((selfIssued e1.cert = false ∧ selfIssued e2.cert = true) ∨
     (selfIssued e1.cert = selfIssued e2.cert ∧
       (e2.cert.validity_not_before < e1.cert.validity_not_before ∨
        (e2.cert.validity_not_before = e1.cert.validity_not_before ∧
         e2.cert.validity_not_after < e1.cert.validity_not_after)))))

instance (e1 e2 : IssuerEntry) : Decidable (claimPreferredC2 e1 e2) := by
  unfold claimPreferredC2
  infer_instance

/-- A target certificate for the C2 scenario. -/
def targetC2 : ParsedCertificate := ⟨0, 1, 2, 0, 0, 0, 0, none, none⟩

/-- A self-issued candidate issuer entry (subject = issuer = 5). -/
def entrySelfC2 : IssuerEntry :=
  ⟨⟨100, 5, 5, 0, 0, 50, 60, none, none⟩, ⟨.UNSPECIFIED⟩, 3⟩

/-- A non-self-issued candidate issuer entry with the same priority value and
the same validity dates as `entrySelfC2`. -/
def entryNonSelfC2 : IssuerEntry :=
  ⟨⟨101, 6, 7, 0, 0, 50, 60, none, none⟩, ⟨.UNSPECIFIED⟩, 3⟩

/-- An issuer iterator holding both C2 entries, none returned yet, with a sort
pending. -/
def iterC2 : CertIssuersIter :=
  ⟨targetC2, [entrySelfC2, entryNonSelfC2], 0, 0, true, [100, 101], true,
    false, []⟩

/-- Error identifiers attached to a path. Modelled from the spec: the error ids
live in net/cert/pki/cert_errors.h / common_cert_errors.h, which are not among
the sources; the five named ids are the ones path_builder.cc adds, and
`kExternalError n` stands for the opaque domain errors attached by the external
chain validator and the delegate. -/
inductive CertErrorId where
  | kNoIssuersFound
  | kDepthLimitExceeded
  | kIterationLimitExceeded
  | kDeadlineExceeded
  | kInternalError
  | kExternalError (code : Nat)
deriving DecidableEq

/-- One recorded error with its severity. Modelled from the spec:
CertError::AddError as used by path_builder.cc always records high severity;
the validator and delegate may record either severity. -/
structure CertError where
  id : CertErrorId
  high_severity : Bool
deriving DecidableEq

/-- CertPathErrors: per-certificate error lists (indexed by position in the
path) plus the path-global "other errors" bucket. Modelled from the spec
(cert_errors.h is not among the sources); only the operations used by
path_builder.cc are provided. -/
structure CertPathErrors where
  cert_errors : List (Nat × CertError)
  other_errors : List CertError
deriving DecidableEq

def CertPathErrors.empty : CertPathErrors := ⟨[], []⟩

/-- GetOtherErrors()->AddError(id): path-global, high severity. -/
def CertPathErrors.AddOtherError (e : CertPathErrors) (id : CertErrorId) :
    CertPathErrors :=
  { e with other_errors := e.other_errors ++ [⟨id, true⟩] }

/-- GetErrorsForCert(i)->AddError(id): attached to certificate index i, high
severity. -/
def CertPathErrors.AddCertError (e : CertPathErrors) (i : Nat)
    (id : CertErrorId) : CertPathErrors :=
  { e with cert_errors := e.cert_errors ++ [(i, ⟨id, true⟩)] }

/-- ContainsError(id): whether any cert-level or other error has this id. -/
def CertPathErrors.ContainsError (e : CertPathErrors) (id : CertErrorId) :
    Bool :=
  e.cert_errors.any (fun p => p.2.id = id) ||
    e.other_errors.any (fun c => c.id = id)

/-- ContainsHighSeverityErrors(). -/
def CertPathErrors.ContainsHighSeverityErrors (e : CertPathErrors) : Bool :=
  e.cert_errors.any (fun p => p.2.high_severity) ||
    e.other_errors.any (fun c => c.high_severity)

/-- The logical-identity key used by CertIssuerIterPath for cross-path cycle
prevention (path_builder.cc:424-436): normalized subject, raw subjectAltName
extension value, SPKI. -/
def GetKey (cert : ParsedCertificate) : Nat × Nat × Nat :=
  (cert.normalized_subject, cert.subject_alt_names_value, cert.spki_tlv)

/-- CertPathIter state (path_builder.cc:468-513): the pending candidate and the
stack of issuer iterators. The stack is stored top-first (the head is the
most recently appended CertIssuersIter); CopyPath reverses it into
bottom-to-top order. present_certs_ is represented implicitly as the key set
of the stack, which the C++ code keeps in exact correspondence via
Append/Pop. -/
structure CertPathIterState where
  next_issuer : Option IssuerEntry
  cur_path : List CertIssuersIter
deriving DecidableEq

/-- CertIssuerIterPath::IsPresent (path_builder.cc:377-379). -/
def CertPathIterState.IsPresent (st : CertPathIterState)
    (cert : ParsedCertificate) : Bool :=
  st.cur_path.any (fun node => GetKey node.cert = GetKey cert)

/-- CertIssuerIterPath::CopyPath (path_builder.cc:398-402): the certificates of
the stack from bottom to top. -/
def CertPathIterState.CopyPath (st : CertPathIterState) :
    List ParsedCertificate :=
  (st.cur_path.map (fun node => node.cert)).reverse

/-- The CertPathIter constructor (path_builder.cc:515-523): the pending
candidate starts as the target certificate with its trust freshly queried (its
priority field is never read, modelled as 0). -/
def mkCertPathIter (env : SearchEnv) (cert : ParsedCertificate) :
    CertPathIterState :=
  { next_issuer := some
      { cert := cert, trust := env.getTrust cert,
        trust_and_key_id_match_ordering := 0 },
    cur_path := [] }

/-- Per-call configuration of GetNextPath: the deadline (none = null
TimeTicks), the current clock value, and the two caps (0 = unlimited). -/
structure PathIterConfig where
  deadline : Option Nat
  now : Nat
  max_iteration_count : Nat
  max_path_building_depth : Nat
deriving DecidableEq

/-- The deadline test of GetNextPath (path_builder.cc:540):
!deadline.is_null() && Now() > deadline. -/
def deadlinePassed (cfg : PathIterConfig) : Bool :=
  match cfg.deadline with
  | some d => decide (d < cfg.now)
  | none => false

/-- The outputs of one GetNextPath call: the return value and the three out
parameters. -/
structure PathStepOut where
  ret : Bool
  out_certs : List ParsedCertificate
  out_last_cert_trust : CertificateTrust
  out_errors : CertPathErrors
deriving DecidableEq

/-- The leaf trust override (path_builder.cc:603-619): a pending candidate
classified as any trusted-anchor variant is downgraded to Unspecified when the
path is empty (the candidate is the target leaf itself); Distrusted and
Unspecified candidates, and candidates with a non-empty path below them, are
never overridden. -/
def OverrideTrustForLeaf (trust : CertificateTrust) (pathIsEmpty : Bool) :
    CertificateTrust :=
  match trust.type with
  | .TRUSTED_ANCHOR | .TRUSTED_ANCHOR_WITH_EXPIRATION
  | .TRUSTED_ANCHOR_WITH_CONSTRAINTS =>
    if pathIsEmpty then CertificateTrust.ForUnspecified else trust
  | .DISTRUSTED => trust
  | .UNSPECIFIED => trust

/-- The outcome of the issuer-fetch phase of GetNextPath
(path_builder.cc:567-601): an immediate return, a pure backtrack (pop and
continue), or a candidate to classify. -/
inductive FetchOutcome where
  | out (st : CertPathIterState) (count : Nat) (r : PathStepOut)
  | backtrack (st : CertPathIterState) (count : Nat)
  | candidate (st : CertPathIterState) (count : Nat) (e : IssuerEntry)

/-- The issuer-fetch phase of GetNextPath (path_builder.cc:567-601), entered
with no pending candidate: exhaustion when the stack is empty; otherwise
increment the shared iteration counter (a uint32_t, hence the wrap-around) and
stop if it exceeds a configured cap; otherwise ask the top iterator for its
next issuer, emitting a NoIssuersFound partial path if it is exhausted without
ever having had a non-skipped issuer, or silently backtracking if it did. -/
def fetchNextIssuer (env : SearchEnv) (cfg : PathIterConfig) :
    CertPathIterState → Nat → FetchOutcome
  | ⟨ni, []⟩, count =>
    .out ⟨ni, []⟩ count
      { ret := false, out_certs := [],
        out_last_cert_trust := CertificateTrust.ForUnspecified,
        out_errors := CertPathErrors.empty }
  | ⟨ni, back :: rest⟩, count =>
    if 0 < cfg.max_iteration_count ∧
        cfg.max_iteration_count < (count + 1) % 2 ^ 32 then
      .out ⟨ni, back :: rest⟩ ((count + 1) % 2 ^ 32)
        { ret := false,
          out_certs := CertPathIterState.CopyPath ⟨ni, back :: rest⟩,
          out_last_cert_trust := CertificateTrust.ForUnspecified,
          out_errors :=
            CertPathErrors.empty.AddOtherError .kIterationLimitExceeded }
    else
      match CertIssuersIter.GetNextIssuer env back with
      | (back1, none) =>
        if back1.had_non_skipped_issuers then
          .backtrack ⟨ni, rest⟩ ((count + 1) % 2 ^ 32)
        else
          .out ⟨ni, rest⟩ ((count + 1) % 2 ^ 32)
            { ret := true,
              out_certs := CertPathIterState.CopyPath ⟨ni, back1 :: rest⟩,
              out_last_cert_trust := CertificateTrust.ForUnspecified,
              out_errors := CertPathErrors.empty.AddCertError
                ((CertPathIterState.CopyPath ⟨ni, back1 :: rest⟩).length - 1)
                .kNoIssuersFound }
      | (back1, some e) =>
        .candidate ⟨ni, back1 :: rest⟩ ((count + 1) % 2 ^ 32) e

/-- Bump the skipped-issuer count of the stack-top iterator
(path_builder.cc:643, cur_path_.back()->increment_skipped_issuer_count()). -/
def bumpBackSkipped (st : CertPathIterState) : CertPathIterState :=
  match st.cur_path with
  | [] => st
  | back :: rest =>
    { st with cur_path := back.increment_skipped_issuer_count :: rest }

/-- The while(true) loop of CertPathIter::GetNextPath (path_builder.cc:529-660)
with explicit fuel, one unit per loop iteration. Per iteration: the deadline
check, the depth-limit check, the issuer-fetch phase when no candidate is
pending, the leaf trust override, and the classification switch that either
returns a complete path (known trust) or pushes deeper / skips a duplicate
(unspecified). Returns none only when the fuel runs out before the call
returns. -/
def GetNextPathLoop (env : SearchEnv) (cfg : PathIterConfig) :
    Nat → CertPathIterState → Nat →
      Option (CertPathIterState × Nat × PathStepOut)
  | 0, _, _ => none
  | fuel + 1, st, count =>
    if deadlinePassed cfg then
      some (st, count,
        { ret := false,
          out_certs :=
            if st.cur_path.isEmpty then
              match st.next_issuer with
              | some e => [e.cert]
              | none => []
            else st.CopyPath,
          out_last_cert_trust := CertificateTrust.ForUnspecified,
          out_errors := CertPathErrors.empty.AddOtherError .kDeadlineExceeded })
    else if 0 < cfg.max_path_building_depth ∧
        cfg.max_path_building_depth ≤ st.cur_path.length then
      some ({ st with cur_path := st.cur_path.tail }, count,
        { ret := true, out_certs := st.CopyPath,
          out_last_cert_trust := CertificateTrust.ForUnspecified,
          out_errors :=
            CertPathErrors.empty.AddOtherError .kDepthLimitExceeded })
    else
      match
        (match st.next_issuer with
         | some e => FetchOutcome.candidate { st with next_issuer := none }
             count e
         | none => fetchNextIssuer env cfg st count) with
      | .out st1 count1 r => some (st1, count1, r)
      | .backtrack st1 count1 => GetNextPathLoop env cfg fuel st1 count1
      | .candidate st1 count1 e =>
        let trust := OverrideTrustForLeaf e.trust st1.cur_path.isEmpty
        if trust.type = .UNSPECIFIED then
          if st1.IsPresent e.cert then
            GetNextPathLoop env cfg fuel (bumpBackSkipped st1) count1
          else
            GetNextPathLoop env cfg fuel
              { st1 with cur_path := mkCertIssuersIter e.cert :: st1.cur_path }
              count1
        else
          some (st1, count1,
            { ret := true, out_certs := st1.CopyPath ++ [e.cert],
              out_last_cert_trust := trust,
              out_errors := CertPathErrors.empty })

/-- CertPathBuilderResultPath (path_builder.h): the certificate list, the
terminal trust and the accumulated errors (the policy output is not modelled;
no claim mentions it). -/
structure CertPathBuilderResultPath where
  certs : List ParsedCertificate
  last_cert_trust : CertificateTrust
  errors : CertPathErrors
deriving DecidableEq

/-- CertPathBuilderResultPath::GetTrustedCert (path_builder.cc:447-463). -/
def CertPathBuilderResultPath.GetTrustedCert
    (p : CertPathBuilderResultPath) : Option ParsedCertificate :=
  if p.certs.isEmpty then none
  else
    match p.last_cert_trust.type with
    | .TRUSTED_ANCHOR | .TRUSTED_ANCHOR_WITH_EXPIRATION
    | .TRUSTED_ANCHOR_WITH_CONSTRAINTS => p.certs.getLast?
    | .UNSPECIFIED | .DISTRUSTED => none

/-- CertPathBuilderResultPath::IsValid (path_builder.cc:665-667). -/
def CertPathBuilderResultPath.IsValid (p : CertPathBuilderResultPath) : Bool :=
  p.GetTrustedCert.isSome && !p.errors.ContainsHighSeverityErrors

/-- CertPathBuilder::Result (path_builder.h): all recorded paths, the best
index, the maximum depth seen, the two limit flags, and the iteration count. -/
structure BuilderResult where
  paths : List CertPathBuilderResultPath
  best_result_index : Nat
  max_depth_seen : Nat
  exceeded_iteration_limit : Bool
  exceeded_deadline : Bool
  iteration_count : Nat
deriving DecidableEq

/-- A default-constructed Result. -/
def BuilderResult.initial : BuilderResult := ⟨[], 0, 0, false, false, 0⟩

/-- Result::GetBestPathPossiblyInvalid (path_builder.cc:697-706). -/
def BuilderResult.GetBestPathPossiblyInvalid (r : BuilderResult) :
    Option CertPathBuilderResultPath :=
  r.paths.get? r.best_result_index

/-- Result::GetBestValidPath (path_builder.cc:687-695). -/
def BuilderResult.GetBestValidPath (r : BuilderResult) :
    Option CertPathBuilderResultPath :=
  match r.GetBestPathPossiblyInvalid with
  | some p => if p.IsValid then some p else none
  | none => none

/-- Result::HasValidPath (path_builder.cc:674-676). -/
def BuilderResult.HasValidPath (r : BuilderResult) : Bool :=
  r.GetBestValidPath.isSome

/-- Result::AnyPathContainsError (path_builder.cc:678-685). -/
def BuilderResult.AnyPathContainsError (r : BuilderResult)
    (id : CertErrorId) : Bool :=
  r.paths.any (fun p => p.errors.ContainsError id)

/-- CertPathBuilder::AddResultPath (path_builder.cc:827-849): while no valid
path is recorded, promote the new path to best if it is valid, or if its
terminal trust is known while the current best path's terminal trust is
unspecified; then update the maximum depth seen and append the path. -/
def CertPathBuilder.AddResultPath (out_result : BuilderResult)
    (result_path : CertPathBuilderResultPath) : BuilderResult :=
  let r1 :=
    if out_result.HasValidPath = false then
      if result_path.IsValid = true ∨
          (result_path.last_cert_trust.HasUnspecifiedTrust = false ∧
            (match out_result.GetBestPathPossiblyInvalid with
             | some old_best => old_best.last_cert_trust.HasUnspecifiedTrust
             | none => false) = true) then
        { out_result with best_result_index := out_result.paths.length }
      else out_result
    else out_result
  let r2 :=
    if r1.max_depth_seen < result_path.certs.length then
      { r1 with max_depth_seen := result_path.certs.length }
    else r1
  { r2 with paths := r2.paths ++ [result_path] }

/-- The Builder's external collaborators and configuration: the search
environment, the chain validator and the delegate hook (both modelled from the
spec as opaque error transformers, since verify_certificate_chain and the
delegate are external to path_builder.cc), and the explore-all-paths flag. -/
structure BuilderEnv where
  env : SearchEnv
  verifyChain : List ParsedCertificate → CertificateTrust → CertPathErrors →
    CertPathErrors
  checkPathAfterVerification : List ParsedCertificate → CertificateTrust →
    CertPathErrors → CertPathErrors
  explore_all_paths : Bool

/-- The limit-flag updates made by Run when GetNextPath returns false
(path_builder.cc:768-775). -/
def setLimitFlags (out_result : BuilderResult) (r : PathStepOut) :
    BuilderResult :=
  let res1 :=
    if r.out_errors.ContainsError .kIterationLimitExceeded then
      { out_result with exceeded_iteration_limit := true }
    else out_result
  if r.out_errors.ContainsError .kDeadlineExceeded then
    { res1 with exceeded_deadline := true }
  else res1

/-- The error list of a recorded final partial path: an InternalError is added
unless a high-severity error is already present (path_builder.cc:776-784 and
791-797). -/
def ensureHighSeverityError (errs : CertPathErrors) : CertPathErrors :=
  if errs.ContainsHighSeverityErrors then errs
  else errs.AddOtherError .kInternalError

/-- The Result Path recorded for a true-returning GetNextPath call
(path_builder.cc:791-811): partial (unspecified-trust) paths only get the
defensive InternalError; complete paths run the external chain validator; the
delegate hook then inspects and may rewrite the errors in either case. -/
def mkVerifiedResultPath (benv : BuilderEnv) (r : PathStepOut) :
    CertPathBuilderResultPath :=
  let errs1 :=
    if r.out_last_cert_trust.HasUnspecifiedTrust then
      ensureHighSeverityError r.out_errors
    else benv.verifyChain r.out_certs r.out_last_cert_trust r.out_errors
  ⟨r.out_certs, r.out_last_cert_trust,
    benv.checkPathAfterVerification r.out_certs r.out_last_cert_trust errs1⟩

/-- The loop of CertPathBuilder::Run (path_builder.cc:757-825) with explicit
call budget. Returns the final Result together with the number of GetNextPath
invocations made (instrumentation used to state the stop-early property);
none when the budget or the inner fuel runs out. -/
def RunLoop (benv : BuilderEnv) (cfg : PathIterConfig) (innerFuel : Nat) :
    Nat → CertPathIterState → Nat → BuilderResult →
      Option (BuilderResult × Nat)
  | 0, _, _, _ => none
  | budget + 1, st, count, out_result =>
    match GetNextPathLoop benv.env cfg innerFuel st count with
    | none => none
    | some (st1, count1, r) =>
      if r.ret = false then
        let res2 := setLimitFlags out_result r
        if r.out_certs.isEmpty then
          some ({ res2 with iteration_count := count1 }, 1)
        else
          some ({ CertPathBuilder.AddResultPath res2
              ⟨r.out_certs, r.out_last_cert_trust,
                ensureHighSeverityError r.out_errors⟩ with
              iteration_count := count1 }, 1)
      else
        let result_path := mkVerifiedResultPath benv r
        let res1 := CertPathBuilder.AddResultPath out_result result_path
        if result_path.IsValid && !benv.explore_all_paths then
          some ({ res1 with iteration_count := count1 }, 1)
        else
          match RunLoop benv cfg innerFuel budget st1 count1 res1 with
          | none => none
          | some (res, n) => some (res, n + 1)

/-- CertPathBuilder::Run from a fresh builder for one target certificate. -/
def CertPathBuilder.Run (benv : BuilderEnv) (cfg : PathIterConfig)
    (innerFuel budget : Nat) (cert : ParsedCertificate) :
    Option (BuilderResult × Nat) :=
  RunLoop benv cfg innerFuel budget (mkCertPathIter benv.env cert) 0
    BuilderResult.initial

/-- The number of GetNextPath calls, from a given iterator state, until one
returns false; none if the call budget or the per-call fuel is exhausted
first. -/
def callsToFalse (env : SearchEnv) (cfg : PathIterConfig) (innerFuel : Nat) :
    Nat → CertPathIterState → Nat → Option Nat
  | 0, _, _ => none
  | budget + 1, st, count =>
    match GetNextPathLoop env cfg innerFuel st count with
    | none => none
    | some (st1, count1, r) =>
      if r.ret then
        (callsToFalse env cfg innerFuel budget st1 count1).map (· + 1)
      else some 1

/-- The certificates of the C6 depth-limit scenario: target `certT` chains
through two intermediates to the anchor `certR`. -/
def certT : ParsedCertificate := ⟨1, 10, 11, 0, 1, 0, 0, none, none⟩

def certI1 : ParsedCertificate := ⟨2, 11, 12, 0, 2, 0, 0, none, none⟩

def certI2 : ParsedCertificate := ⟨3, 12, 13, 0, 3, 0, 0, none, none⟩

def certR : ParsedCertificate := ⟨4, 13, 13, 0, 4, 0, 0, none, none⟩

/-- The environment of the C6 scenario: only `certR` is trusted; the single
issuer source follows the chain. -/
def envC6 : SearchEnv :=
  ⟨fun c => if c = certR then ⟨.TRUSTED_ANCHOR⟩ else ⟨.UNSPECIFIED⟩,
   [⟨fun c =>
      if c = certT then [certI1]
      else if c = certI1 then [certI2]
      else if c = certI2 then [certR] else [],
     fun _ => []⟩]⟩

/-- Configuration with depth cap 1 and everything else unlimited. -/
def cfgC6 : PathIterConfig := ⟨none, 0, 0, 1⟩

/-- The target of the C1 counterexample: a self-signed certificate classified
as a trust anchor. -/
def leafC1 : ParsedCertificate := ⟨1, 7, 7, 8, 9, 0, 0, none, none⟩

/-- C1 counterexample environment: everything is trusted and the single issuer
source returns the leaf itself (the trust store doubling as an issuer source
for a self-signed anchor behaves exactly like this). -/
def envC1 : SearchEnv :=
  ⟨fun _ => ⟨.TRUSTED_ANCHOR⟩, [⟨fun _ => [leafC1], fun _ => []⟩]⟩

/-- Configuration with no deadline and no caps. -/
def cfgFree : PathIterConfig := ⟨none, 0, 0, 0⟩

/-- The Builder environment of the C8 witness scenario: the chain environment
with identity validator and delegate, not exploring all paths. -/
def benvC8 : BuilderEnv := ⟨envC6, fun _ _ e => e, fun _ _ e => e, false⟩

/-- The valid complete path found in the C8 witness scenario. -/
def validPathC8 : CertPathBuilderResultPath :=
  ⟨[certT, certI1, certI2, certR], ⟨.TRUSTED_ANCHOR⟩, ⟨[], []⟩⟩

/-- The final Result of the C8 witness scenario. -/
def resC8 : BuilderResult := ⟨[validPathC8], 0, 4, false, false, 3⟩

/-- Termination measure for GetNextPath under a positive iteration cap K and
depth cap D: the remaining iteration budget (doubled), plus one if the stack
is at or over a positive depth cap, plus one if a candidate is pending. -/
def pathIterMeasure (K D : Nat) (st : CertPathIterState) (count : Nat) :
    Nat :=
  2 * (K + 1 - count) +
    (if 0 < D ∧ D ≤ st.cur_path.length then 1 else 0) +
    (if st.next_issuer.isSome then 1 else 0)

/-- Fixture for the iteration-cap claim: certificate A of a two-element issuer
cycle (A is issued by B, B is issued by A). -/
def certA : ParsedCertificate := ⟨10, 1, 2, 0, 100, 0, 0, none, none⟩

/-- Fixture: certificate B of the cycle. -/
def certB : ParsedCertificate := ⟨20, 2, 1, 0, 200, 0, 0, none, none⟩

/-- Fixture: environment in which A and B issue each other and nothing is
trusted. -/
def envCycle : SearchEnv :=
  ⟨fun _ => ⟨.UNSPECIFIED⟩,
   [⟨fun c => if c = certA then [certB] else if c = certB then [certA]
      else [], fun _ => []⟩]⟩

/-- Fixture: iteration cap 100, no deadline, no depth cap. -/
def cfgK : PathIterConfig := ⟨none, 0, 100, 0⟩

/-- Fixture for the wrap-around counterexample: the k-th certificate of an
unbounded issuer chain; its subject is k and its issuer is k + 1, so every
certificate has a fresh identity key. -/
def chainCert (n : Nat) : ParsedCertificate :=
  ⟨n, n, n + 1, 0, 0, 0, 0, none, none⟩

/-- Fixture: the environment whose single synchronous source mints the next
chain certificate for every query and which trusts nothing. -/
def envChain : SearchEnv :=
  ⟨fun _ => ⟨.UNSPECIFIED⟩,
   [⟨fun c => [chainCert c.normalized_issuer], fun _ => []⟩]⟩

/-- Fixture: iteration cap 2^32 - 1, the wrap-around value of the uint32
iteration counter; no deadline, no depth cap. -/
def cfgWrap : PathIterConfig := ⟨none, 0, 2 ^ 32 - 1, 0⟩

/-- The single issuer entry the chain environment produces for chainCert k. -/
def chainEntry (k : Nat) : IssuerEntry :=
  ⟨chainCert (k + 1), ⟨.UNSPECIFIED⟩,
    TrustAndKeyIdentifierMatchToOrder (chainCert k) (chainCert (k + 1))
      ⟨.UNSPECIFIED⟩⟩

/-- The iterator over chainCert k after its single issuer was returned. -/
def iterConsumed (k : Nat) : CertIssuersIter :=
  ⟨chainCert k, [chainEntry k], 1, 0, false, [k + 1], true, false, []⟩

/-- The stack of consumed chain iterators below depth k. -/
def consumedChain : Nat → List CertIssuersIter
  | 0 => []
  | k + 1 => iterConsumed k :: consumedChain k

/-- The search state after k pushes along the chain. -/
def chainState (k : Nat) : CertPathIterState :=
  ⟨none, mkCertIssuersIter (chainCert k) :: consumedChain k⟩

theorem issuerLt_iff (e1 e2 : IssuerEntry) :
    issuerLt e1 e2 = true ↔
      issuerPreferred e1.trust_and_key_id_match_ordering (selfIssued e1.cert)
        e1.cert.validity_not_before e1.cert.validity_not_after
        e2.trust_and_key_id_match_ordering (selfIssued e2.cert)
        e2.cert.validity_not_before e2.cert.validity_not_after := by
  cases h1 : selfIssued e1.cert <;> cases h2 : selfIssued e2.cert <;>
    simp only [issuerLt, tieLt4, boolLtB, issuerPreferred, h1, h2] <;>
    split_ifs <;> simp_all <;> omega

theorem issuerPreferred_asymm {o1 o2 b1 b2 a1 a2 : Nat} {s1 s2 : Bool} :
    issuerPreferred o1 s1 b1 a1 o2 s2 b2 a2 →
      ¬ issuerPreferred o2 s2 b2 a2 o1 s1 b1 a1 := by
  cases s1 <;> cases s2 <;> simp [issuerPreferred] <;> omega

theorem issuerPreferred_negtrans {o1 o2 o3 b1 b2 b3 a1 a2 a3 : Nat}
    {s1 s2 s3 : Bool} :
    issuerPreferred o3 s3 b3 a3 o1 s1 b1 a1 →
      issuerPreferred o3 s3 b3 a3 o2 s2 b2 a2 ∨
        issuerPreferred o2 s2 b2 a2 o1 s1 b1 a1 := by
  cases s1 <;> cases s2 <;> cases s3 <;> simp [issuerPreferred] <;> omega

theorem issuerLe_iff (e1 e2 : IssuerEntry) :
    issuerLe e1 e2 = true ↔
      ¬ issuerPreferred e2.trust_and_key_id_match_ordering (selfIssued e2.cert)
        e2.cert.validity_not_before e2.cert.validity_not_after
        e1.trust_and_key_id_match_ordering (selfIssued e1.cert)
        e1.cert.validity_not_before e1.cert.validity_not_after := by
  rw [issuerLe, Bool.not_eq_true', ← Bool.not_eq_true, not_iff_not,
    issuerLt_iff]

theorem issuerLe_total (e1 e2 : IssuerEntry) :
    issuerLe e1 e2 = true ∨ issuerLe e2 e1 = true := by
  rw [issuerLe_iff, issuerLe_iff]
  by_cases h : issuerPreferred e2.trust_and_key_id_match_ordering
      (selfIssued e2.cert) e2.cert.validity_not_before
      e2.cert.validity_not_after e1.trust_and_key_id_match_ordering
      (selfIssued e1.cert) e1.cert.validity_not_before
      e1.cert.validity_not_after
  · exact Or.inr (issuerPreferred_asymm h)
  · exact Or.inl h

theorem issuerLe_trans (e1 e2 e3 : IssuerEntry) :
    issuerLe e1 e2 = true → issuerLe e2 e3 = true → issuerLe e1 e3 = true := by
  rw [issuerLe_iff, issuerLe_iff, issuerLe_iff]
  intro h12 h23 h31
  rcases issuerPreferred_negtrans h31 with h | h
  · exact h23 h
  · exact h12 h

theorem order_eq_specTable (target issuer : ParsedCertificate)
    (tr : CertificateTrust) :
    TrustAndKeyIdentifierMatchToOrder target issuer tr =
      specTrustMatchOrder tr.type (CalculateKeyIdentifierMatch target issuer) := by
  rcases tr with ⟨ty⟩
  cases ty <;> cases h : CalculateKeyIdentifierMatch target issuer <;>
    simp [TrustAndKeyIdentifierMatchToOrder, specTrustMatchOrder, h,
      CertificateTrustType.isAnchor]

theorem keyIdMatch_eq_kMatch_iff (target issuer : ParsedCertificate) :
    CalculateKeyIdentifierMatch target issuer = .kMatch ↔
      ∃ kid, target.authority_key_identifier = some (some kid) ∧
        issuer.subject_key_identifier = some kid := by
  rcases h : target.authority_key_identifier with _ | (_ | kid) <;>
    rcases h2 : issuer.subject_key_identifier with _ | skid <;>
    simp [CalculateKeyIdentifierMatch, h, h2]
  by_cases hk : kid = skid <;> simp [hk, Ne.symm, eq_comm]

theorem keyIdMatch_eq_kMismatch_iff (target issuer : ParsedCertificate) :
    CalculateKeyIdentifierMatch target issuer = .kMismatch ↔
      ∃ kid skid, target.authority_key_identifier = some (some kid) ∧
        issuer.subject_key_identifier = some skid ∧ kid ≠ skid := by
  rcases h : target.authority_key_identifier with _ | (_ | kid) <;>
    rcases h2 : issuer.subject_key_identifier with _ | skid <;>
    simp [CalculateKeyIdentifierMatch, h, h2]

/-- C3: the priority key for candidate issuer I of target T follows the fixed
nine-entry table: the key-identifier match class is Match exactly when T's
authority key identifier value matches I's subject key identifier, Mismatch
exactly when T carries one and I's is present but different, and NoData when T
carries no key identifier value or I carries none; the combined order is the
spec's table (trusted+Match 0, trusted+NoData 1, unspecified+Match 2,
unspecified+NoData 3, trusted+Mismatch 4, unspecified+Mismatch 5,
distrusted+Match 6, distrusted+NoData 7, distrusted+Mismatch 8); hence for
equal match classes a trusted-anchor candidate always gets a strictly smaller
(better) key than a distrusted one. -/
theorem claim_C3_priority_order (target issuer issuer2 : ParsedCertificate)
    (tr tr2 : CertificateTrust) :
    (TrustAndKeyIdentifierMatchToOrder target issuer tr =
      specTrustMatchOrder tr.type (CalculateKeyIdentifierMatch target issuer)) ∧
    (CalculateKeyIdentifierMatch target issuer = .kMatch ↔
      ∃ kid, target.authority_key_identifier = some (some kid) ∧
        issuer.subject_key_identifier = some kid) ∧
    (CalculateKeyIdentifierMatch target issuer = .kMismatch ↔
      ∃ kid skid, target.authority_key_identifier = some (some kid) ∧
        issuer.subject_key_identifier = some skid ∧ kid ≠ skid) ∧
    ((∀ kid, target.authority_key_identifier ≠ some (some kid)) →
      CalculateKeyIdentifierMatch target issuer = .kNoData) ∧
    (issuer.subject_key_identifier = none →
      CalculateKeyIdentifierMatch target issuer = .kNoData) ∧
    (tr.type.isAnchor = true → tr2.type = .DISTRUSTED →
      CalculateKeyIdentifierMatch target issuer =
        CalculateKeyIdentifierMatch target issuer2 →
      TrustAndKeyIdentifierMatchToOrder target issuer tr <
        TrustAndKeyIdentifierMatchToOrder target issuer2 tr2) := by
  refine ⟨order_eq_specTable target issuer tr, keyIdMatch_eq_kMatch_iff _ _,
    keyIdMatch_eq_kMismatch_iff _ _, ?_, ?_, ?_⟩
  · intro hnone
    rcases h : target.authority_key_identifier with _ | (_ | kid)
    · simp [CalculateKeyIdentifierMatch, h]
    · simp [CalculateKeyIdentifierMatch, h]
    · exact absurd h (hnone kid)
  · intro h2
    rcases h : target.authority_key_identifier with _ | (_ | kid) <;>
      simp [CalculateKeyIdentifierMatch, h, h2]
  · intro hA hD hM
    rw [order_eq_specTable, order_eq_specTable, hD, ← hM]
    rcases tr with ⟨ty⟩
    cases ty <;> simp [CertificateTrustType.isAnchor] at hA <;>
      cases CalculateKeyIdentifierMatch target issuer <;>
      simp [specTrustMatchOrder, CertificateTrustType.isAnchor]

/-- Witness for C3 at concrete input: a matching-key-identifier pair where the
trusted candidate's order value is strictly below the distrusted one's. -/
theorem claim_C3_priority_order_witness :
    TrustAndKeyIdentifierMatchToOrder
        ⟨0, 1, 2, 3, 4, 5, 6, some (some 9), none⟩
        ⟨10, 11, 12, 13, 14, 15, 16, none, some 9⟩ ⟨.TRUSTED_ANCHOR⟩ <
      TrustAndKeyIdentifierMatchToOrder
        ⟨0, 1, 2, 3, 4, 5, 6, some (some 9), none⟩
        ⟨20, 21, 22, 23, 24, 25, 26, none, some 9⟩ ⟨.DISTRUSTED⟩ :=
  (claim_C3_priority_order ⟨0, 1, 2, 3, 4, 5, 6, some (some 9), none⟩
    ⟨10, 11, 12, 13, 14, 15, 16, none, some 9⟩
    ⟨20, 21, 22, 23, 24, 25, 26, none, some 9⟩ ⟨.TRUSTED_ANCHOR⟩
    ⟨.DISTRUSTED⟩).2.2.2.2.2 (by decide) (by decide) (by decide)

theorem AddIssuers_fields (env : SearchEnv) :
    ∀ (l : List ParsedCertificate) (st : CertIssuersIter),
      (CertIssuersIter.AddIssuers env st l).cert = st.cert ∧
      (CertIssuersIter.AddIssuers env st l).cur_issuer = st.cur_issuer ∧
      (CertIssuersIter.AddIssuers env st l).skipped_issuer_count =
        st.skipped_issuer_count ∧
      (CertIssuersIter.AddIssuers env st l).pending_async_requests =
        st.pending_async_requests
  | [], st => ⟨rfl, rfl, rfl, rfl⟩
  | issuer :: rest, st => by
    rw [CertIssuersIter.AddIssuers]
    split
    · exact AddIssuers_fields env rest st
    · exact AddIssuers_fields env rest _

theorem drainAsyncLoop_fields (env : SearchEnv) :
    ∀ (fuel : Nat) (st : CertIssuersIter)
      (reqs : List (List (List ParsedCertificate))),
      (drainAsyncLoop env fuel st reqs).cert = st.cert ∧
      (drainAsyncLoop env fuel st reqs).cur_issuer = st.cur_issuer ∧
      (drainAsyncLoop env fuel st reqs).skipped_issuer_count =
        st.skipped_issuer_count
  | 0, st, reqs => ⟨rfl, rfl, rfl⟩
  | fuel + 1, st, [] => ⟨rfl, rfl, rfl⟩
  | fuel + 1, st, req :: rest => by
    simp only [drainAsyncLoop]
    split
    · exact ⟨rfl, rfl, rfl⟩
    · match req with
      | [] => exact drainAsyncLoop_fields env fuel st rest
      | batch :: more =>
        dsimp only
        split
        · exact drainAsyncLoop_fields env fuel st rest
        · have h1 := drainAsyncLoop_fields env fuel
            (CertIssuersIter.AddIssuers env st batch) (more :: rest)
          have h2 := AddIssuers_fields env batch st
          exact ⟨h1.1.trans h2.1, h1.2.1.trans h2.2.1,
            h1.2.2.trans h2.2.2.1⟩

theorem syncQueryAll_fields (env : SearchEnv) :
    ∀ (srcs : List CertIssuerSource) (st : CertIssuersIter),
      (syncQueryAll env srcs st).cert = st.cert ∧
      (syncQueryAll env srcs st).cur_issuer = st.cur_issuer ∧
      (syncQueryAll env srcs st).skipped_issuer_count =
        st.skipped_issuer_count
  | [], st => ⟨rfl, rfl, rfl⟩
  | src :: rest, st => by
    rw [syncQueryAll]
    have h1 := syncQueryAll_fields env rest
      (CertIssuersIter.AddIssuers env st (src.syncGetIssuersOf st.cert))
    have h2 := AddIssuers_fields env (src.syncGetIssuersOf st.cert) st
    exact ⟨h1.1.trans h2.1, h1.2.1.trans h2.2.1, h1.2.2.trans h2.2.2.1⟩

theorem SortRemainingIssuers_fields (st : CertIssuersIter) :
    st.SortRemainingIssuers.cert = st.cert ∧
    st.SortRemainingIssuers.cur_issuer = st.cur_issuer ∧
    st.SortRemainingIssuers.skipped_issuer_count =
      st.skipped_issuer_count := by
  rw [CertIssuersIter.SortRemainingIssuers]
  split <;> exact ⟨rfl, rfl, rfl⟩

theorem issuerInitialQuery_fields (env : SearchEnv) (st : CertIssuersIter) :
    (issuerInitialQuery env st).cert = st.cert ∧
    (issuerInitialQuery env st).cur_issuer = st.cur_issuer ∧
    (issuerInitialQuery env st).skipped_issuer_count =
      st.skipped_issuer_count := by
  rw [issuerInitialQuery]
  split
  · exact ⟨rfl, rfl, rfl⟩
  · exact syncQueryAll_fields env env.cert_issuer_sources _

theorem issuerAsyncPhase_fields (env : SearchEnv) (st : CertIssuersIter) :
    (issuerAsyncPhase env st).cert = st.cert ∧
    (issuerAsyncPhase env st).cur_issuer = st.cur_issuer ∧
    (issuerAsyncPhase env st).skipped_issuer_count =
      st.skipped_issuer_count := by
  rw [issuerAsyncPhase]
  split
  · exact ⟨rfl, rfl, rfl⟩
  · split <;> exact drainAsyncLoop_fields env _ _ _

/-- GetNextIssuer never moves the consumed-entry cursor backwards, never
changes which certificate the iterator is for, and never changes the
skipped-issuer count. -/
theorem GetNextIssuer_cursor_mono (env : SearchEnv) (st : CertIssuersIter) :
    st.cur_issuer ≤ (CertIssuersIter.GetNextIssuer env st).1.cur_issuer ∧
    (CertIssuersIter.GetNextIssuer env st).1.cert = st.cert ∧
    (CertIssuersIter.GetNextIssuer env st).1.skipped_issuer_count =
      st.skipped_issuer_count := by
  obtain ⟨hc1, hq1, hs1⟩ := issuerInitialQuery_fields env st
  obtain ⟨hc2, hq2, hs2⟩ := issuerAsyncPhase_fields env (issuerInitialQuery env st)
  obtain ⟨hc3, hq3, hs3⟩ := SortRemainingIssuers_fields
    (issuerAsyncPhase env (issuerInitialQuery env st))
  rw [CertIssuersIter.GetNextIssuer]
  dsimp only
  split
  · split
    · exact ⟨by dsimp only; omega,
        by dsimp only; rw [hc3, hc2, hc1],
        by dsimp only; rw [hs3, hs2, hs1]⟩
    · exact ⟨by dsimp only; omega,
        by dsimp only; rw [hc3, hc2, hc1],
        by dsimp only; rw [hs3, hs2, hs1]⟩
  · exact ⟨by dsimp only; omega, hc2.trans hc1, hs2.trans hs1⟩

/-- C2 counterexample: after sorting, the self-issued entry comes FIRST even
though the non-self-issued entry ties on the priority value and on both
validity dates; the ordering claimed by the spec (tie-break 1 preferring the
non-self-issued issuer) is violated by the code's comparator, whose std::tie
swap puts issuer2's self-issued flag on the left-hand side and therefore
prefers self-issued issuers. -/
theorem claim_C2_counterexample :
    iterC2.issuers_needs_sort = true ∧ iterC2.cur_issuer = 0 ∧
    iterC2.SortRemainingIssuers.issuers.get? 0 = some entrySelfC2 ∧
    iterC2.SortRemainingIssuers.issuers.get? 1 = some entryNonSelfC2 ∧
    claimPreferredC2 entryNonSelfC2 entrySelfC2 ∧
    entrySelfC2 ≠ entryNonSelfC2 ∧
    ¬ List.Pairwise (fun a b => ¬ claimPreferredC2 b a)
        iterC2.SortRemainingIssuers.issuers := by
  decide

/-- C2 (amended: at equal priority values the comparator prefers the
SELF-ISSUED issuer, the opposite of the claim's tie-break 1; the other
tie-breaks and all structural parts are as claimed): whenever a merge has
flagged a pending sort, sorting leaves the cursor alone, leaves every entry
before the cursor exactly in place, permutes only the entries from the cursor
onward, and leaves them stably sorted by: priority value ascending, then
self-issued preferred over non-self-issued, then later notBefore, then later
notAfter; equal-key entries keep their original relative order (stability),
and the cursor only ever advances forward across GetNextIssuer calls. -/
theorem claim_C2_stable_priority_sort (st : CertIssuersIter) (env : SearchEnv)
    (it : CertIssuersIter) (hcur : st.cur_issuer ≤ st.issuers.length)
    (hns : st.issuers_needs_sort = true) :
    st.SortRemainingIssuers.cur_issuer = st.cur_issuer ∧
    st.SortRemainingIssuers.issuers.take st.cur_issuer =
      st.issuers.take st.cur_issuer ∧
    (st.SortRemainingIssuers.issuers.drop st.cur_issuer).Perm
      (st.issuers.drop st.cur_issuer) ∧
    (st.SortRemainingIssuers.issuers.drop st.cur_issuer).Pairwise issuerLeP ∧
    (∀ a b : IssuerEntry, issuerLe a b = true →
      [a, b].Sublist (st.issuers.drop st.cur_issuer) →
      [a, b].Sublist (st.SortRemainingIssuers.issuers.drop st.cur_issuer)) ∧
    (∀ e1 e2 : IssuerEntry, issuerLt e1 e2 = true ↔
      issuerPreferred e1.trust_and_key_id_match_ordering (selfIssued e1.cert)
        e1.cert.validity_not_before e1.cert.validity_not_after
        e2.trust_and_key_id_match_ordering (selfIssued e2.cert)
        e2.cert.validity_not_before e2.cert.validity_not_after) ∧
    it.cur_issuer ≤ (CertIssuersIter.GetNextIssuer env it).1.cur_issuer := by
  have hlen : (st.issuers.take st.cur_issuer).length = st.cur_issuer := by
    simp [List.length_take, Nat.min_eq_left hcur]
  have hsort : st.SortRemainingIssuers.issuers =
      st.issuers.take st.cur_issuer ++
        List.insertionSort issuerLeP (st.issuers.drop st.cur_issuer) := by
    rw [CertIssuersIter.SortRemainingIssuers, if_pos hns]
  have hcur2 : st.SortRemainingIssuers.cur_issuer = st.cur_issuer := by
    rw [CertIssuersIter.SortRemainingIssuers, if_pos hns]
  have htake : st.SortRemainingIssuers.issuers.take st.cur_issuer =
      st.issuers.take st.cur_issuer := by
    rw [hsort, List.take_append_of_le_length (le_of_eq hlen.symm),
      List.take_take, Nat.min_self]
  have hdrop : st.SortRemainingIssuers.issuers.drop st.cur_issuer =
      List.insertionSort issuerLeP (st.issuers.drop st.cur_issuer) := by
    rw [hsort, List.drop_append_of_le_length (le_of_eq hlen.symm),
      List.drop_eq_nil_of_le (le_of_eq hlen), List.nil_append]
  haveI : IsTotal IssuerEntry issuerLeP :=
    ⟨fun a b => issuerLe_total a b⟩
  haveI : IsTrans IssuerEntry issuerLeP :=
    ⟨fun a b c hab hbc => issuerLe_trans a b c hab hbc⟩
  refine ⟨hcur2, htake, ?_, ?_, ?_, fun e1 e2 => issuerLt_iff e1 e2,
    (GetNextIssuer_cursor_mono env it).1⟩
  · rw [hdrop]
    exact List.perm_insertionSort issuerLeP _
  · rw [hdrop]
    exact List.sorted_insertionSort issuerLeP _
  · intro a b hab hsub
    rw [hdrop]
    exact List.pair_sublist_insertionSort hab hsub

/-- Witness for the amended C2 at a concrete iterator state. -/
theorem claim_C2_stable_priority_sort_witness :
    iterC2.cur_issuer ≤ iterC2.issuers.length ∧
    iterC2.issuers_needs_sort = true ∧
    iterC2.SortRemainingIssuers.cur_issuer = iterC2.cur_issuer :=
  ⟨by decide, by decide,
    (claim_C2_stable_priority_sort iterC2 ⟨fun _ => ⟨.UNSPECIFIED⟩, []⟩
      iterC2 (by decide) (by decide)).1⟩

theorem CopyPath_length (st : CertPathIterState) :
    st.CopyPath.length = st.cur_path.length := by
  simp [CertPathIterState.CopyPath]

theorem CopyPath_keys (st : CertPathIterState) :
    st.CopyPath.map GetKey =
      (st.cur_path.map (fun node => GetKey node.cert)).reverse := by
  simp [CertPathIterState.CopyPath, List.map_reverse, List.map_map]

theorem override_empty_not_anchor (t : CertificateTrust) :
    (OverrideTrustForLeaf t true).type.isAnchor = false := by
  rcases t with ⟨ty⟩
  cases ty <;> simp [OverrideTrustForLeaf, CertificateTrust.ForUnspecified,
    CertificateTrustType.isAnchor]

theorem ForUnspecified_not_anchor :
    CertificateTrust.ForUnspecified.type.isAnchor = false := rfl

/-- Any path returned by GetNextPath whose terminal trust is a trusted-anchor
variant has at least two certificates: the leaf override prevents a complete
path consisting of the trusted target alone. -/
theorem anchor_emission_min_len (env : SearchEnv) (cfg : PathIterConfig) :
    ∀ (fuel : Nat) (st : CertPathIterState) (count : Nat)
      (st1 : CertPathIterState) (count1 : Nat) (r : PathStepOut),
      GetNextPathLoop env cfg fuel st count = some (st1, count1, r) →
      r.out_last_cert_trust.type.isAnchor = true → 2 ≤ r.out_certs.length
  | 0, st, count => by
    intro st1 count1 r heq
    simp [GetNextPathLoop] at heq
  | fuel + 1, ⟨ni, cp⟩, count => by
    intro st1 count1 r heq hanchor
    rw [GetNextPathLoop] at heq
    split at heq
    · simp only [Option.some.injEq, Prod.mk.injEq] at heq
      obtain ⟨h1, h2, h3⟩ := heq
      subst h3
      simp [CertificateTrust.ForUnspecified, CertificateTrustType.isAnchor]
        at hanchor
    · split at heq
      · simp only [Option.some.injEq, Prod.mk.injEq] at heq
        obtain ⟨h1, h2, h3⟩ := heq
        subst h3
        simp [CertificateTrust.ForUnspecified, CertificateTrustType.isAnchor]
          at hanchor
      · rcases ni with _ | e
        · rcases cp with _ | ⟨back, rest⟩
          · simp only [fetchNextIssuer] at heq
            simp only [Option.some.injEq, Prod.mk.injEq] at heq
            obtain ⟨h1, h2, h3⟩ := heq
            subst h3
            simp [CertificateTrust.ForUnspecified,
              CertificateTrustType.isAnchor] at hanchor
          · simp only [fetchNextIssuer] at heq
            split at heq <;> rename_i heqS
            case h_1 stx ctx rx =>
              simp only [Option.some.injEq, Prod.mk.injEq] at heq
              obtain ⟨h1, h2, h3⟩ := heq
              subst h3
              split at heqS
              · cases heqS
                simp [CertificateTrust.ForUnspecified,
                  CertificateTrustType.isAnchor] at hanchor
              · rcases hgni : CertIssuersIter.GetNextIssuer env back with
                  ⟨back1, _ | e0⟩ <;> rw [hgni] at heqS <;> dsimp only at heqS
                · split at heqS
                  · cases heqS
                  · cases heqS
                    simp [CertificateTrust.ForUnspecified,
                      CertificateTrustType.isAnchor] at hanchor
                · cases heqS
            case h_2 stx ctx =>
              exact anchor_emission_min_len env cfg fuel stx ctx st1 count1 r
                heq hanchor
            case h_3 stx ctx ex =>
              have hcp : ∃ back1 : CertIssuersIter,
                  stx = ⟨none, back1 :: rest⟩ := by
                split at heqS
                · cases heqS
                · rcases hgni : CertIssuersIter.GetNextIssuer env back with
                    ⟨back1, _ | e0⟩ <;> rw [hgni] at heqS <;>
                    dsimp only at heqS
                  · split at heqS <;> cases heqS
                  · cases heqS
                    exact ⟨back1, rfl⟩
              obtain ⟨back1, hstx⟩ := hcp
              split at heq
              · split at heq
                · exact anchor_emission_min_len env cfg fuel _ _ st1 count1 r
                    heq hanchor
                · exact anchor_emission_min_len env cfg fuel _ _ st1 count1 r
                    heq hanchor
              · rename_i htr
                simp only [Option.some.injEq, Prod.mk.injEq] at heq
                obtain ⟨h1, h2, h3⟩ := heq
                subst h3
                dsimp only at hanchor
                subst hstx
                simp only [List.length_append, List.length_cons,
                  CopyPath_length]
                simp
        · dsimp only at heq
          split at heq
          · split at heq
            · exact anchor_emission_min_len env cfg fuel _ _ st1 count1 r heq
                hanchor
            · exact anchor_emission_min_len env cfg fuel _ _ st1 count1 r heq
                hanchor
          · rename_i htr
            simp only [Option.some.injEq, Prod.mk.injEq] at heq
            obtain ⟨h1, h2, h3⟩ := heq
            subst h3
            dsimp only at hanchor
            rcases cp with _ | ⟨a, l⟩
            · simp only [List.isEmpty_nil] at hanchor
              rw [override_empty_not_anchor] at hanchor
              simp at hanchor
            · simp only [List.length_append, List.length_cons, CopyPath_length]
              simp

/-- C4: a pending candidate classified as any trusted-anchor variant is
overridden to Unspecified exactly when the path stack is empty; the override
never fires for a non-empty stack and never touches Distrusted or Unspecified
candidates; consequently no call ever returns a single-certificate complete
path with trusted-anchor terminal trust, and from the initial state a
trusted-leaf target is pushed onto the stack (the call proceeds exactly as for
an unclassified leaf). -/
theorem claim_C4_trusted_leaf_override :
    (∀ t : CertificateTrust, t.type.isAnchor = true →
      OverrideTrustForLeaf t true = CertificateTrust.ForUnspecified) ∧
    (∀ t : CertificateTrust, OverrideTrustForLeaf t false = t) ∧
    (∀ b : Bool, OverrideTrustForLeaf ⟨.DISTRUSTED⟩ b = ⟨.DISTRUSTED⟩ ∧
      OverrideTrustForLeaf ⟨.UNSPECIFIED⟩ b = ⟨.UNSPECIFIED⟩) ∧
    (∀ (env : SearchEnv) (cfg : PathIterConfig) (fuel : Nat)
      (st st1 : CertPathIterState) (count count1 : Nat) (r : PathStepOut),
      GetNextPathLoop env cfg fuel st count = some (st1, count1, r) →
      r.out_last_cert_trust.type.isAnchor = true → 2 ≤ r.out_certs.length) ∧
    (∀ (env : SearchEnv) (cfg : PathIterConfig) (fuel count : Nat)
      (cert : ParsedCertificate), deadlinePassed cfg = false →
      (env.getTrust cert).type.isAnchor = true →
      GetNextPathLoop env cfg (fuel + 1) (mkCertPathIter env cert) count =
        GetNextPathLoop env cfg fuel ⟨none, [mkCertIssuersIter cert]⟩ count) := by
  refine ⟨?_, ?_, ?_, ?_, ?_⟩
  · intro t ht
    rcases t with ⟨ty⟩
    cases ty <;> simp_all [OverrideTrustForLeaf, CertificateTrustType.isAnchor]
  · intro t
    rcases t with ⟨ty⟩
    cases ty <;> simp [OverrideTrustForLeaf]
  · intro b
    exact ⟨rfl, rfl⟩
  · intro env cfg fuel st st1 count count1 r heq hanchor
    exact anchor_emission_min_len env cfg fuel st count st1 count1 r heq
      hanchor
  · intro env cfg fuel count cert hdl hanchor
    rw [GetNextPathLoop]
    rw [if_neg (by simp [hdl])]
    rw [if_neg (by simp [mkCertPathIter]; omega)]
    have hov : OverrideTrustForLeaf (env.getTrust cert)
        (([] : List CertIssuersIter).isEmpty) =
          CertificateTrust.ForUnspecified := by
      rcases h : env.getTrust cert with ⟨ty⟩
      rw [h] at hanchor
      cases ty <;>
        simp_all [OverrideTrustForLeaf, CertificateTrustType.isAnchor]
    dsimp only [mkCertPathIter]
    rw [hov]
    rw [if_pos (show CertificateTrust.ForUnspecified.type =
      CertificateTrustType.UNSPECIFIED from rfl)]
    rw [if_neg (by simp [CertPathIterState.IsPresent])]

/-- Witness for C4: the override at a concrete anchor-classified trust with an
empty stack, plus the first-call equation for a concrete trusted leaf. -/
theorem claim_C4_trusted_leaf_override_witness :
    OverrideTrustForLeaf ⟨.TRUSTED_ANCHOR⟩ true =
        CertificateTrust.ForUnspecified ∧
      GetNextPathLoop ⟨fun _ => ⟨.TRUSTED_ANCHOR⟩, []⟩ ⟨none, 0, 0, 0⟩ 9
          (mkCertPathIter ⟨fun _ => ⟨.TRUSTED_ANCHOR⟩, []⟩
            ⟨1, 7, 7, 8, 9, 0, 0, none, none⟩) 0 =
        GetNextPathLoop ⟨fun _ => ⟨.TRUSTED_ANCHOR⟩, []⟩ ⟨none, 0, 0, 0⟩ 8
          ⟨none, [mkCertIssuersIter ⟨1, 7, 7, 8, 9, 0, 0, none, none⟩]⟩ 0 :=
  ⟨claim_C4_trusted_leaf_override.1 ⟨.TRUSTED_ANCHOR⟩ (by decide),
    claim_C4_trusted_leaf_override.2.2.2.2 ⟨fun _ => ⟨.TRUSTED_ANCHOR⟩, []⟩
      ⟨none, 0, 0, 0⟩ 8 0 ⟨1, 7, 7, 8, 9, 0, 0, none, none⟩ (by decide)
      (by decide)⟩

/-- C6: whenever the deadline has not passed, a positive depth cap is
configured and the stack has reached it, GetNextPath returns true (a
resumable candidate) with the current stack snapshot as the partial path,
exactly one DepthLimitExceeded error, and exactly one level popped; in the
concrete scenario with depth cap 1 and a target needing two intermediates
before the anchor, the first call returns the length-1 partial path carrying
DepthLimitExceeded with the stack backtracked to empty. -/
theorem claim_C6_depth_limit :
    (∀ (env : SearchEnv) (cfg : PathIterConfig) (fuel : Nat)
      (st : CertPathIterState) (count : Nat),
      deadlinePassed cfg = false → 0 < cfg.max_path_building_depth →
      cfg.max_path_building_depth ≤ st.cur_path.length →
      GetNextPathLoop env cfg (fuel + 1) st count =
        some (⟨st.next_issuer, st.cur_path.tail⟩, count,
          { ret := true, out_certs := st.CopyPath,
            out_last_cert_trust := CertificateTrust.ForUnspecified,
            out_errors :=
              CertPathErrors.empty.AddOtherError .kDepthLimitExceeded })) ∧
    GetNextPathLoop envC6 cfgC6 10 (mkCertPathIter envC6 certT) 0 =
      some (⟨none, []⟩, 0,
        { ret := true, out_certs := [certT],
          out_last_cert_trust := ⟨.UNSPECIFIED⟩,
          out_errors := ⟨[], [⟨.kDepthLimitExceeded, true⟩]⟩ }) := by
  constructor
  · intro env cfg fuel st count hdl hD hlen
    rw [GetNextPathLoop]
    rw [if_neg (by simp [hdl])]
    rw [if_pos ⟨hD, hlen⟩]
  · decide

/-- Witness for C6 at a concrete state already at the depth cap. -/
theorem claim_C6_depth_limit_witness :
    GetNextPathLoop envC6 cfgC6 4 ⟨none, [mkCertIssuersIter certT]⟩ 0 =
      some (⟨none, []⟩, 0,
        { ret := true,
          out_certs :=
            CertPathIterState.CopyPath ⟨none, [mkCertIssuersIter certT]⟩,
          out_last_cert_trust := CertificateTrust.ForUnspecified,
          out_errors :=
            CertPathErrors.empty.AddOtherError .kDepthLimitExceeded }) :=
  claim_C6_depth_limit.1 envC6 cfgC6 3 ⟨none, [mkCertIssuersIter certT]⟩ 0
    (by decide) (by decide) (by decide)

/-- C10: plain exhaustion is error-free and path-free: a GetNextPath call with
an empty stack, no pending candidate and an unexpired deadline returns false
with an empty certificate list, Unspecified terminal trust, no errors, and an
unchanged state; the Builder's loop consequently records no Result Path for
that final call and leaves both limit flags unchanged, only storing the
iteration count. -/
theorem claim_C10_plain_exhaustion :
    (∀ (env : SearchEnv) (cfg : PathIterConfig) (fuel count : Nat),
      deadlinePassed cfg = false →
      GetNextPathLoop env cfg (fuel + 1) ⟨none, []⟩ count =
        some (⟨none, []⟩, count,
          { ret := false, out_certs := [],
            out_last_cert_trust := CertificateTrust.ForUnspecified,
            out_errors := CertPathErrors.empty })) ∧
    (∀ (benv : BuilderEnv) (cfg : PathIterConfig)
      (innerFuel budget count : Nat) (acc : BuilderResult),
      deadlinePassed cfg = false →
      RunLoop benv cfg (innerFuel + 1) (budget + 1) ⟨none, []⟩ count acc =
        some ({ acc with iteration_count := count }, 1)) := by
  have hstep : ∀ (env : SearchEnv) (cfg : PathIterConfig) (fuel count : Nat),
      deadlinePassed cfg = false →
      GetNextPathLoop env cfg (fuel + 1) ⟨none, []⟩ count =
        some (⟨none, []⟩, count,
          { ret := false, out_certs := [],
            out_last_cert_trust := CertificateTrust.ForUnspecified,
            out_errors := CertPathErrors.empty }) := by
    intro env cfg fuel count hdl
    rw [GetNextPathLoop]
    rw [if_neg (by simp [hdl])]
    rw [if_neg (by simp; omega)]
    rfl
  refine ⟨hstep, ?_⟩
  intro benv cfg innerFuel budget count acc hdl
  rw [RunLoop]
  rw [hstep benv.env cfg innerFuel count hdl]
  rfl

/-- Witness for C10 with a concrete environment and a concrete accumulated
Result. -/
theorem claim_C10_plain_exhaustion_witness :
    RunLoop ⟨envC6, fun _ _ e => e, fun _ _ e => e, false⟩ cfgC6 5 5
        ⟨none, []⟩ 7 BuilderResult.initial =
      some ({ BuilderResult.initial with iteration_count := 7 }, 1) :=
  claim_C10_plain_exhaustion.2 ⟨envC6, fun _ _ e => e, fun _ _ e => e, false⟩
    cfgC6 4 4 7 BuilderResult.initial (by decide)

/-- C7: with a deadline strictly in the past, every GetNextPath call returns
false with a DeadlineExceeded error and the state unchanged, where the output
path is the stack snapshot when the stack is non-empty and the pending (leaf)
certificate when it is empty; in particular the very first invocation returns
exactly the bare target, the call counter stops at one, and the Builder's Run
records that single partial path and sets the exceeded-deadline flag. -/
theorem claim_C7_deadline_in_past :
    (∀ (env : SearchEnv) (cfg : PathIterConfig) (fuel count : Nat)
      (st : CertPathIterState) (d : Nat),
      cfg.deadline = some d → d < cfg.now →
      GetNextPathLoop env cfg (fuel + 1) st count =
        some (st, count,
          { ret := false,
            out_certs :=
              if st.cur_path.isEmpty then
                match st.next_issuer with
                | some e => [e.cert]
                | none => []
              else st.CopyPath,
            out_last_cert_trust := CertificateTrust.ForUnspecified,
            out_errors :=
              CertPathErrors.empty.AddOtherError .kDeadlineExceeded })) ∧
    (∀ (env : SearchEnv) (cfg : PathIterConfig) (fuel count : Nat)
      (cert : ParsedCertificate) (d : Nat),
      cfg.deadline = some d → d < cfg.now →
      GetNextPathLoop env cfg (fuel + 1) (mkCertPathIter env cert) count =
        some (mkCertPathIter env cert, count,
          { ret := false, out_certs := [cert],
            out_last_cert_trust := CertificateTrust.ForUnspecified,
            out_errors :=
              CertPathErrors.empty.AddOtherError .kDeadlineExceeded })) ∧
    (∀ (env : SearchEnv) (cfg : PathIterConfig) (fuel budget count : Nat)
      (cert : ParsedCertificate) (d : Nat),
      cfg.deadline = some d → d < cfg.now →
      callsToFalse env cfg (fuel + 1) (budget + 1)
        (mkCertPathIter env cert) count = some 1) ∧
    (∀ (benv : BuilderEnv) (cfg : PathIterConfig) (innerFuel budget : Nat)
      (cert : ParsedCertificate) (d : Nat),
      cfg.deadline = some d → d < cfg.now →
      CertPathBuilder.Run benv cfg (innerFuel + 1) (budget + 1) cert =
        some ({ paths := [⟨[cert], CertificateTrust.ForUnspecified,
                  CertPathErrors.empty.AddOtherError .kDeadlineExceeded⟩],
                best_result_index := 0, max_depth_seen := 1,
                exceeded_iteration_limit := false, exceeded_deadline := true,
                iteration_count := 0 }, 1)) := by
  have hstep : ∀ (env : SearchEnv) (cfg : PathIterConfig) (fuel count : Nat)
      (st : CertPathIterState) (d : Nat),
      cfg.deadline = some d → d < cfg.now →
      GetNextPathLoop env cfg (fuel + 1) st count =
        some (st, count,
          { ret := false,
            out_certs :=
              if st.cur_path.isEmpty then
                match st.next_issuer with
                | some e => [e.cert]
                | none => []
              else st.CopyPath,
            out_last_cert_trust := CertificateTrust.ForUnspecified,
            out_errors :=
              CertPathErrors.empty.AddOtherError .kDeadlineExceeded }) := by
    intro env cfg fuel count st d hd hnow
    rw [GetNextPathLoop]
    rw [if_pos (by simp [deadlinePassed, hd, hnow])]
  have hfirst : ∀ (env : SearchEnv) (cfg : PathIterConfig) (fuel count : Nat)
      (cert : ParsedCertificate) (d : Nat),
      cfg.deadline = some d → d < cfg.now →
      GetNextPathLoop env cfg (fuel + 1) (mkCertPathIter env cert) count =
        some (mkCertPathIter env cert, count,
          { ret := false, out_certs := [cert],
            out_last_cert_trust := CertificateTrust.ForUnspecified,
            out_errors :=
              CertPathErrors.empty.AddOtherError .kDeadlineExceeded }) := by
    intro env cfg fuel count cert d hd hnow
    rw [hstep env cfg fuel count (mkCertPathIter env cert) d hd hnow]
    rfl
  refine ⟨hstep, hfirst, ?_, ?_⟩
  · intro env cfg fuel budget count cert d hd hnow
    rw [callsToFalse]
    rw [hfirst env cfg fuel count cert d hd hnow]
    rfl
  · intro benv cfg innerFuel budget cert d hd hnow
    rw [CertPathBuilder.Run, RunLoop]
    rw [hfirst benv.env cfg innerFuel 0 cert d hd hnow]
    rfl

/-- Witness for C7 at a concrete past deadline. -/
theorem claim_C7_deadline_in_past_witness :
    CertPathBuilder.Run ⟨envC6, fun _ _ e => e, fun _ _ e => e, false⟩
        ⟨some 5, 6, 0, 0⟩ 10 5 certT =
      some ({ paths := [⟨[certT], CertificateTrust.ForUnspecified,
                CertPathErrors.empty.AddOtherError .kDeadlineExceeded⟩],
              best_result_index := 0, max_depth_seen := 1,
              exceeded_iteration_limit := false, exceeded_deadline := true,
              iteration_count := 0 }, 1) :=
  claim_C7_deadline_in_past.2.2.2 ⟨envC6, fun _ _ e => e, fun _ _ e => e,
    false⟩ ⟨some 5, 6, 0, 0⟩ 9 4 certT 5 rfl (by decide)

theorem AddResultPath_unfold (acc : BuilderResult)
    (p : CertPathBuilderResultPath) :
    (CertPathBuilder.AddResultPath acc p).paths = acc.paths ++ [p] ∧
    (CertPathBuilder.AddResultPath acc p).best_result_index =
      (if acc.HasValidPath = false ∧
          (p.IsValid = true ∨
            (p.last_cert_trust.HasUnspecifiedTrust = false ∧
              (match acc.GetBestPathPossiblyInvalid with
               | some old_best => old_best.last_cert_trust.HasUnspecifiedTrust
               | none => false) = true))
        then acc.paths.length else acc.best_result_index) := by
  rw [CertPathBuilder.AddResultPath]
  dsimp only
  split
  case isTrue h1 =>
    split
    case isTrue h2 =>
      have hc : acc.HasValidPath = false ∧
          (p.IsValid = true ∨
            (p.last_cert_trust.HasUnspecifiedTrust = false ∧
              (match acc.GetBestPathPossiblyInvalid with
               | some old_best => old_best.last_cert_trust.HasUnspecifiedTrust
               | none => false) = true)) := ⟨h1, h2⟩
      rw [if_pos hc]
      split <;> exact ⟨rfl, rfl⟩
    case isFalse h2 =>
      have hc : ¬(acc.HasValidPath = false ∧
          (p.IsValid = true ∨
            (p.last_cert_trust.HasUnspecifiedTrust = false ∧
              (match acc.GetBestPathPossiblyInvalid with
               | some old_best => old_best.last_cert_trust.HasUnspecifiedTrust
               | none => false) = true))) := fun hand => h2 hand.2
      rw [if_neg hc]
      split <;> exact ⟨rfl, rfl⟩
  case isFalse h1 =>
    have hc : ¬(acc.HasValidPath = false ∧
        (p.IsValid = true ∨
          (p.last_cert_trust.HasUnspecifiedTrust = false ∧
            (match acc.GetBestPathPossiblyInvalid with
             | some old_best => old_best.last_cert_trust.HasUnspecifiedTrust
             | none => false) = true))) := fun hand => h1 hand.1
    rw [if_neg hc]
    split <;> exact ⟨rfl, rfl⟩

theorem HasValidPath_exists_valid (acc : BuilderResult) :
    acc.HasValidPath = true ↔
      ∃ q, acc.GetBestPathPossiblyInvalid = some q ∧ q.IsValid = true := by
  rw [BuilderResult.HasValidPath, BuilderResult.GetBestValidPath]
  rcases h : acc.GetBestPathPossiblyInvalid with _ | q
  · simp
  · by_cases hv : q.IsValid = true <;> simp [hv]

/-- C9: while no valid path has been recorded, a newly recorded path becomes
the best exactly when it is itself valid, or when its terminal trust is known
while the current best path's terminal trust is Unspecified; recording a valid
path makes HasValidPath true; and once HasValidPath holds, recording more
paths never changes the best-result index (and HasValidPath stays true). -/
theorem claim_C9_best_index_maintenance (acc : BuilderResult)
    (p : CertPathBuilderResultPath) :
    (acc.HasValidPath = true →
      (CertPathBuilder.AddResultPath acc p).best_result_index =
        acc.best_result_index ∧
      (CertPathBuilder.AddResultPath acc p).HasValidPath = true) ∧
    (acc.HasValidPath = false → p.IsValid = true →
      (CertPathBuilder.AddResultPath acc p).best_result_index =
        acc.paths.length ∧
      (CertPathBuilder.AddResultPath acc p).HasValidPath = true) ∧
    (acc.HasValidPath = false → p.IsValid = false →
      ∀ ob, acc.GetBestPathPossiblyInvalid = some ob →
        ob.last_cert_trust.HasUnspecifiedTrust = true →
        p.last_cert_trust.HasUnspecifiedTrust = false →
        (CertPathBuilder.AddResultPath acc p).best_result_index =
          acc.paths.length) ∧
    (acc.HasValidPath = false → p.IsValid = false →
      (p.last_cert_trust.HasUnspecifiedTrust = true ∨
        (match acc.GetBestPathPossiblyInvalid with
         | some ob => ob.last_cert_trust.HasUnspecifiedTrust
         | none => false) = false) →
      (CertPathBuilder.AddResultPath acc p).best_result_index =
        acc.best_result_index) := by
  obtain ⟨hpaths, hbest⟩ := AddResultPath_unfold acc p
  refine ⟨?_, ?_, ?_, ?_⟩
  · intro hvalid
    have hidx : (CertPathBuilder.AddResultPath acc p).best_result_index =
        acc.best_result_index := by
      rw [hbest, if_neg (by simp [hvalid])]
    refine ⟨hidx, ?_⟩
    obtain ⟨q, hq, hqv⟩ := (HasValidPath_exists_valid acc).mp hvalid
    rw [HasValidPath_exists_valid]
    refine ⟨q, ?_, hqv⟩
    rw [BuilderResult.GetBestPathPossiblyInvalid, hpaths, hidx]
    rw [BuilderResult.GetBestPathPossiblyInvalid] at hq
    have hlt : acc.best_result_index < acc.paths.length :=
      List.get?_eq_some.mp hq |>.1
    rw [List.get?_append hlt]
    exact hq
  · intro hnone hpv
    have hidx : (CertPathBuilder.AddResultPath acc p).best_result_index =
        acc.paths.length := by
      rw [hbest, if_pos ⟨hnone, Or.inl hpv⟩]
    refine ⟨hidx, ?_⟩
    rw [HasValidPath_exists_valid]
    refine ⟨p, ?_, hpv⟩
    rw [BuilderResult.GetBestPathPossiblyInvalid, hpaths, hidx]
    simp
  · intro hnone hpv ob hob hobu hpu
    rw [hbest, if_pos ⟨hnone, Or.inr ⟨hpu, by rw [hob]; exact hobu⟩⟩]
  · intro hnone hpv hside
    rw [hbest, if_neg]
    intro ⟨h1, h2⟩
    rcases h2 with h2 | ⟨h2a, h2b⟩
    · rw [hpv] at h2
      cases h2
    · rcases hside with hs | hs
      · rw [hs] at h2a
        cases h2a
      · rw [hs] at h2b
        cases h2b

/-- Witness for C9 at a concrete Result and path. -/
theorem claim_C9_best_index_maintenance_witness :
    (CertPathBuilder.AddResultPath BuilderResult.initial
      ⟨[certT], CertificateTrust.ForUnspecified,
        CertPathErrors.empty.AddOtherError .kNoIssuersFound⟩).best_result_index
      = BuilderResult.initial.best_result_index :=
  (claim_C9_best_index_maintenance BuilderResult.initial
    ⟨[certT], CertificateTrust.ForUnspecified,
      CertPathErrors.empty.AddOtherError .kNoIssuersFound⟩).2.2.2
    (by decide) (by decide) (Or.inl (by decide))

/-- The search preserves distinctness of the logical identity keys on the path
stack, and every emitted path is key-distinct except possibly for the terminal
candidate appended to a complete (known-trust) path. -/
theorem nodup_keys_loop (env : SearchEnv) (cfg : PathIterConfig) :
    ∀ (fuel : Nat) (st : CertPathIterState) (count : Nat)
      (st1 : CertPathIterState) (count1 : Nat) (r : PathStepOut),
      GetNextPathLoop env cfg fuel st count = some (st1, count1, r) →
      (st.cur_path.map (fun node => GetKey node.cert)).Nodup →
      (st1.cur_path.map (fun node => GetKey node.cert)).Nodup ∧
      (r.out_last_cert_trust.type = .UNSPECIFIED →
        (r.out_certs.map GetKey).Nodup) ∧
      (r.out_last_cert_trust.type ≠ .UNSPECIFIED →
        (r.out_certs.dropLast.map GetKey).Nodup)
  | 0, st, count => by
    intro st1 count1 r heq
    simp [GetNextPathLoop] at heq
  | fuel + 1, ⟨ni, cp⟩, count => by
    intro st1 count1 r heq hnd
    rw [GetNextPathLoop] at heq
    split at heq
    · -- deadline return: state unchanged, partial path
      simp only [Option.some.injEq, Prod.mk.injEq] at heq
      obtain ⟨h1, h2, h3⟩ := heq
      subst h3
      subst h1
      refine ⟨hnd, fun _ => ?_, fun hne => absurd rfl hne⟩
      dsimp only
      split
      · split <;> simp
      · rw [CopyPath_keys]
        simpa using hnd
    · split at heq
      · -- depth-limit return: one level popped, partial path
        simp only [Option.some.injEq, Prod.mk.injEq] at heq
        obtain ⟨h1, h2, h3⟩ := heq
        subst h3
        subst h1
        refine ⟨?_, fun _ => ?_, fun hne => absurd rfl hne⟩
        · rcases cp with _ | ⟨back, rest⟩
          · simpa using hnd
          · simp only [List.tail_cons]
            simp only [List.map_cons, List.nodup_cons] at hnd
            exact hnd.2
        · rw [CopyPath_keys]
          simpa using hnd
      · rcases ni with _ | e
        · rcases cp with _ | ⟨back, rest⟩
          · -- exhaustion
            simp only [fetchNextIssuer] at heq
            simp only [Option.some.injEq, Prod.mk.injEq] at heq
            obtain ⟨h1, h2, h3⟩ := heq
            subst h3
            subst h1
            exact ⟨hnd, fun _ => by simp, fun hne => absurd rfl hne⟩
          · simp only [fetchNextIssuer] at heq
            have hback := GetNextIssuer_cursor_mono env back
            split at heq <;> rename_i heqS
            case h_1 stx ctx rx =>
              simp only [Option.some.injEq, Prod.mk.injEq] at heq
              obtain ⟨h1, h2, h3⟩ := heq
              subst h3
              subst h1
              split at heqS
              · -- iteration limit: state unchanged, snapshot
                cases heqS
                refine ⟨hnd, fun _ => ?_, fun hne => absurd rfl hne⟩
                dsimp only
                rw [CopyPath_keys, List.nodup_reverse]
                exact hnd
              · rcases hgni : CertIssuersIter.GetNextIssuer env back with
                  ⟨back1, _ | e0⟩ <;> rw [hgni] at heqS <;> dsimp only at heqS
                · rw [hgni] at hback
                  split at heqS
                  · cases heqS
                  · -- NoIssuersFound: popped state, snapshot incl. back1
                    cases heqS
                    have hnd0 : (GetKey back.cert ::
                        List.map (fun node => GetKey node.cert) rest).Nodup :=
                      hnd
                    refine ⟨(List.nodup_cons.mp hnd0).2, fun _ => ?_,
                      fun hne => absurd rfl hne⟩
                    dsimp only
                    rw [CopyPath_keys, List.nodup_reverse]
                    have hbc : back1.cert = back.cert := hback.2.1
                    simpa [hbc] using hnd0
                · cases heqS
            case h_2 stx ctx =>
              have hcase : stx = ⟨none, rest⟩ := by
                split at heqS
                · cases heqS
                · rcases hgni : CertIssuersIter.GetNextIssuer env back with
                    ⟨back1, _ | e0⟩ <;> rw [hgni] at heqS <;>
                    dsimp only at heqS
                  · split at heqS
                    · cases heqS
                      rfl
                    · cases heqS
                  · cases heqS
              subst hcase
              refine nodup_keys_loop env cfg fuel _ _ st1 count1 r heq ?_
              simp only [List.map_cons, List.nodup_cons] at hnd
              exact hnd.2
            case h_3 stx ctx ex =>
              have hcase : ∃ back1 : CertIssuersIter,
                  back1.cert = back.cert ∧ stx = ⟨none, back1 :: rest⟩ := by
                split at heqS
                · cases heqS
                · rcases hgni : CertIssuersIter.GetNextIssuer env back with
                    ⟨back1, _ | e0⟩ <;> rw [hgni] at heqS <;>
                    dsimp only at heqS
                  · split at heqS <;> cases heqS
                  · cases heqS
                    have hback := GetNextIssuer_cursor_mono env back
                    rw [hgni] at hback
                    exact ⟨back1, hback.2.1, rfl⟩
              obtain ⟨back1, hbc, hstx⟩ := hcase
              subst hstx
              have hnd1 : ((⟨none, back1 :: rest⟩ :
                  CertPathIterState).cur_path.map
                    (fun node => GetKey node.cert)).Nodup := by
                simp only [List.map_cons]
                rw [hbc]
                simpa using hnd
              split at heq
              · split at heq
                · -- skipped duplicate
                  refine nodup_keys_loop env cfg fuel _ _ st1 count1 r heq ?_
                  simpa [bumpBackSkipped,
                    CertIssuersIter.increment_skipped_issuer_count] using hnd1
                · -- push a fresh iterator
                  rename_i hpres
                  refine nodup_keys_loop env cfg fuel _ _ st1 count1 r heq ?_
                  dsimp only
                  rw [List.map_cons, List.nodup_cons]
                  refine ⟨?_, hnd1⟩
                  intro hmem
                  rw [List.mem_map] at hmem
                  obtain ⟨node, hnode, hkey⟩ := hmem
                  refine hpres ?_
                  rw [CertPathIterState.IsPresent]
                  rw [List.any_eq_true]
                  exact ⟨node, hnode, by rw [hkey]; exact decide_eq_true rfl⟩
              · -- complete path with known trust
                rename_i htr
                simp only [Option.some.injEq, Prod.mk.injEq] at heq
                obtain ⟨h1, h2, h3⟩ := heq
                subst h3
                subst h1
                refine ⟨hnd1, fun htru => absurd htru htr, fun _ => ?_⟩
                dsimp only
                rw [List.dropLast_concat]
                rw [CopyPath_keys]
                rw [List.nodup_reverse]
                exact hnd1
        · -- pending candidate at entry
          dsimp only at heq
          split at heq
          · split at heq
            · refine nodup_keys_loop env cfg fuel _ _ st1 count1 r heq ?_
              rcases cp with _ | ⟨back, rest⟩
              · simpa [bumpBackSkipped] using hnd
              · simpa [bumpBackSkipped,
                  CertIssuersIter.increment_skipped_issuer_count] using hnd
            · rename_i hpres
              refine nodup_keys_loop env cfg fuel _ _ st1 count1 r heq ?_
              dsimp only
              rw [List.map_cons, List.nodup_cons]
              refine ⟨?_, hnd⟩
              intro hmem
              rw [List.mem_map] at hmem
              obtain ⟨node, hnode, hkey⟩ := hmem
              refine hpres ?_
              rw [CertPathIterState.IsPresent]
              rw [List.any_eq_true]
              exact ⟨node, hnode, by rw [hkey]; exact decide_eq_true rfl⟩
          · rename_i htr
            simp only [Option.some.injEq, Prod.mk.injEq] at heq
            obtain ⟨h1, h2, h3⟩ := heq
            subst h3
            subst h1
            refine ⟨hnd, fun htru => absurd htru htr, fun _ => ?_⟩
            dsimp only
            rw [List.dropLast_concat]
            rw [CopyPath_keys]
            rw [List.nodup_reverse]
            exact hnd

/-- C1 counterexample: for a trusted self-signed leaf whose issuer source
returns the leaf itself, the very first GetNextPath call emits the complete
path [L, L] — the same certificate, hence the same logical identity key
(subject, SAN, SPKI), appears twice in an emitted Result Path. The terminal
known-trust candidate is appended without the IsPresent check, so the claim
as stated is false. -/
theorem claim_C1_counterexample :
    ((GetNextPathLoop envC1 cfgFree 10 (mkCertPathIter envC1 leafC1) 0).map
        (fun x => x.2.2)) =
      some ⟨true, [leafC1, leafC1], ⟨.TRUSTED_ANCHOR⟩, CertPathErrors.empty⟩ ∧
    ¬ List.Pairwise (fun a b => GetKey a ≠ GetKey b) [leafC1, leafC1] := by
  decide

/-- C1 (amended: partial Result Paths never repeat a logical identity key, and
complete Result Paths never repeat a key among the certificates other than the
appended terminal candidate; that terminal may coincide in identity with a
stack certificate, e.g. a trusted self-signed leaf yields [L, L]): from any
state whose stack keys are distinct — as the initial state's trivially are —
each GetNextPath call preserves stack-key distinctness, every
Unspecified-terminal (partial) emission is fully key-distinct, and every
known-trust (complete) emission is key-distinct on all certificates before
the terminal one. -/
theorem claim_C1_identity_keys (env : SearchEnv) (cfg : PathIterConfig)
    (fuel : Nat) (st : CertPathIterState) (count : Nat)
    (st1 : CertPathIterState) (count1 : Nat) (r : PathStepOut)
    (heq : GetNextPathLoop env cfg fuel st count = some (st1, count1, r))
    (hnd : (st.cur_path.map (fun node => GetKey node.cert)).Nodup) :
    (st1.cur_path.map (fun node => GetKey node.cert)).Nodup ∧
    (r.out_last_cert_trust.type = .UNSPECIFIED →
      (r.out_certs.map GetKey).Nodup) ∧
    (r.out_last_cert_trust.type ≠ .UNSPECIFIED →
      (r.out_certs.dropLast.map GetKey).Nodup) ∧
    (∀ cert : ParsedCertificate,
      ((mkCertPathIter env cert).cur_path.map
        (fun node => GetKey node.cert)).Nodup) := by
  obtain ⟨ha, hb, hc⟩ :=
    nodup_keys_loop env cfg fuel st count st1 count1 r heq hnd
  exact ⟨ha, hb, hc, fun cert => by simp [mkCertPathIter]⟩

/-- Witness for the amended C1 at the concrete depth-limit scenario call. -/
theorem claim_C1_identity_keys_witness :
    (([certT].map GetKey).Nodup) :=
  (claim_C1_identity_keys envC6 cfgC6 10 (mkCertPathIter envC6 certT) 0
      ⟨none, []⟩ 0
      ⟨true, [certT], ⟨.UNSPECIFIED⟩, ⟨[], [⟨.kDepthLimitExceeded, true⟩]⟩⟩
      (by decide) (by decide)).2.1 rfl

/-- A GetNextPath call that returns false never assigns the terminal trust:
the out parameter keeps its initial ForUnspecified value. -/
theorem loop_false_unspec (env : SearchEnv) (cfg : PathIterConfig) :
    ∀ (fuel : Nat) (st : CertPathIterState) (count : Nat)
      (st1 : CertPathIterState) (count1 : Nat) (r : PathStepOut),
      GetNextPathLoop env cfg fuel st count = some (st1, count1, r) →
      r.ret = false →
      r.out_last_cert_trust = CertificateTrust.ForUnspecified
  | 0, st, count => by
    intro st1 count1 r heq
    simp [GetNextPathLoop] at heq
  | fuel + 1, ⟨ni, cp⟩, count => by
    intro st1 count1 r heq hret
    rw [GetNextPathLoop] at heq
    split at heq
    · simp only [Option.some.injEq, Prod.mk.injEq] at heq
      obtain ⟨h1, h2, h3⟩ := heq
      subst h3
      rfl
    · split at heq
      · simp only [Option.some.injEq, Prod.mk.injEq] at heq
        obtain ⟨h1, h2, h3⟩ := heq
        subst h3
        rfl
      · rcases ni with _ | e
        · rcases cp with _ | ⟨back, rest⟩
          · simp only [fetchNextIssuer] at heq
            simp only [Option.some.injEq, Prod.mk.injEq] at heq
            obtain ⟨h1, h2, h3⟩ := heq
            subst h3
            rfl
          · simp only [fetchNextIssuer] at heq
            split at heq <;> rename_i heqS
            case h_1 stx ctx rx =>
              simp only [Option.some.injEq, Prod.mk.injEq] at heq
              obtain ⟨h1, h2, h3⟩ := heq
              subst h3
              split at heqS
              · cases heqS
                rfl
              · rcases hgni : CertIssuersIter.GetNextIssuer env back with
                  ⟨back1, _ | e0⟩ <;> rw [hgni] at heqS <;> dsimp only at heqS
                · split at heqS
                  · cases heqS
                  · cases heqS
                    rfl
                · cases heqS
            case h_2 stx ctx =>
              exact loop_false_unspec env cfg fuel stx ctx st1 count1 r heq
                hret
            case h_3 stx ctx ex =>
              split at heq
              · split at heq
                · exact loop_false_unspec env cfg fuel _ _ st1 count1 r heq
                    hret
                · exact loop_false_unspec env cfg fuel _ _ st1 count1 r heq
                    hret
              · simp only [Option.some.injEq, Prod.mk.injEq] at heq
                obtain ⟨h1, h2, h3⟩ := heq
                subst h3
                cases hret
        · dsimp only at heq
          split at heq
          · split at heq
            · exact loop_false_unspec env cfg fuel _ _ st1 count1 r heq hret
            · exact loop_false_unspec env cfg fuel _ _ st1 count1 r heq hret
          · simp only [Option.some.injEq, Prod.mk.injEq] at heq
            obtain ⟨h1, h2, h3⟩ := heq
            subst h3
            cases hret

theorem AddResultPath_paths (acc : BuilderResult)
    (p : CertPathBuilderResultPath) :
    (CertPathBuilder.AddResultPath acc p).paths = acc.paths ++ [p] :=
  (AddResultPath_unfold acc p).1

theorem setLimitFlags_paths (acc : BuilderResult) (r : PathStepOut) :
    (setLimitFlags acc r).paths = acc.paths := by
  simp only [setLimitFlags]
  split <;> split <;> rfl

/-- C8: with explore_all_paths = false, the Builder's loop stops at the first
valid recorded path: starting from any accumulated Result whose recorded
paths are all invalid, the final Result has no valid path before its last
entry, and if any recorded path is valid then it is the last one and the
number of GetNextPath calls made equals the number of paths recorded after
the start (no further call is made once a valid path is recorded). -/
theorem claim_C8_stop_early (benv : BuilderEnv) (cfg : PathIterConfig)
    (innerFuel : Nat) :
    ∀ (budget : Nat) (st : CertPathIterState) (count : Nat)
      (acc res : BuilderResult) (n : Nat),
      benv.explore_all_paths = false →
      (∀ p ∈ acc.paths, p.IsValid = false) →
      RunLoop benv cfg innerFuel budget st count acc = some (res, n) →
      (∀ p ∈ res.paths.dropLast, p.IsValid = false) ∧
      ((∃ p ∈ res.paths, p.IsValid = true) →
        res.paths.getLast?.map (fun p => p.IsValid) = some true ∧
          res.paths.length = acc.paths.length + n)
  | 0, st, count => by
    intro acc res n hexp hinv heq
    simp [RunLoop] at heq
  | budget + 1, st, count => by
    intro acc res n hexp hinv heq
    rw [RunLoop] at heq
    rcases hcall : GetNextPathLoop benv.env cfg innerFuel st count with
      _ | ⟨st1, count1, r⟩ <;> rw [hcall] at heq <;> dsimp only at heq
    · cases heq
    · split at heq
      case isTrue hret =>
        have hunspec := loop_false_unspec benv.env cfg innerFuel st count
          st1 count1 r hcall hret
        split at heq
        case isTrue hempty =>
          simp only [Option.some.injEq, Prod.mk.injEq] at heq
          obtain ⟨h1, h2⟩ := heq
          have hp : res.paths = acc.paths := by
            rw [← h1]
            exact setLimitFlags_paths acc r
          rw [hp]
          refine ⟨fun p hp2 => hinv p ((List.dropLast_sublist _).mem hp2),
            fun hex => ?_⟩
          obtain ⟨p, hmem, hvp⟩ := hex
          rw [hinv p hmem] at hvp
          cases hvp
        case isFalse hempty =>
          simp only [Option.some.injEq, Prod.mk.injEq] at heq
          obtain ⟨h1, h2⟩ := heq
          have hpinv : (⟨r.out_certs, r.out_last_cert_trust,
              ensureHighSeverityError r.out_errors⟩ :
              CertPathBuilderResultPath).IsValid = false := by
            rw [CertPathBuilderResultPath.IsValid,
              CertPathBuilderResultPath.GetTrustedCert]
            rcases hc : r.out_certs.isEmpty with _ | _
            · rw [hunspec]
              simp [CertificateTrust.ForUnspecified]
            · simp [hc]
          have hp : res.paths = acc.paths ++
              [⟨r.out_certs, r.out_last_cert_trust,
                ensureHighSeverityError r.out_errors⟩] := by
            rw [← h1]
            rw [show ({ CertPathBuilder.AddResultPath (setLimitFlags acc r)
                ⟨r.out_certs, r.out_last_cert_trust,
                  ensureHighSeverityError r.out_errors⟩ with
                iteration_count := count1 } : BuilderResult).paths =
              (CertPathBuilder.AddResultPath (setLimitFlags acc r)
                ⟨r.out_certs, r.out_last_cert_trust,
                  ensureHighSeverityError r.out_errors⟩).paths from rfl]
            rw [AddResultPath_paths, setLimitFlags_paths]
          rw [hp, List.dropLast_concat]
          refine ⟨hinv, fun hex => ?_⟩
          obtain ⟨p, hmem, hvp⟩ := hex
          rcases List.mem_append.mp hmem with hm | hm
          · rw [hinv p hm] at hvp
            cases hvp
          · rw [List.mem_singleton.mp hm] at hvp
            rw [hpinv] at hvp
            cases hvp
      case isFalse hret =>
        split at heq
        case isTrue hgood =>
          simp only [Option.some.injEq, Prod.mk.injEq] at heq
          obtain ⟨h1, h2⟩ := heq
          rw [Bool.and_eq_true] at hgood
          have hp : res.paths =
              acc.paths ++ [mkVerifiedResultPath benv r] := by
            rw [← h1]
            rw [show ({ CertPathBuilder.AddResultPath acc
                (mkVerifiedResultPath benv r) with
                iteration_count := count1 } : BuilderResult).paths =
              (CertPathBuilder.AddResultPath acc
                (mkVerifiedResultPath benv r)).paths from rfl]
            rw [AddResultPath_paths]
          rw [hp, List.dropLast_concat]
          refine ⟨hinv, fun hex => ⟨?_, ?_⟩⟩
          · rw [List.getLast?_concat]
            simp [hgood.1]
          · rw [← h2]
            simp
        case isFalse hgood =>
          split at heq
          · cases heq
          · rename_i res2 n2 heqR
            simp only [Option.some.injEq, Prod.mk.injEq] at heq
            obtain ⟨h1, h2⟩ := heq
            have hginv : (mkVerifiedResultPath benv r).IsValid = false := by
              rcases hv : (mkVerifiedResultPath benv r).IsValid with _ | _
              · rfl
              · exfalso
                apply hgood
                rw [Bool.and_eq_true]
                exact ⟨hv, by rw [hexp]; rfl⟩
            have hinv2 : ∀ p ∈ (CertPathBuilder.AddResultPath acc
                (mkVerifiedResultPath benv r)).paths, p.IsValid = false := by
              rw [AddResultPath_paths]
              intro p hpmem
              rcases List.mem_append.mp hpmem with hm | hm
              · exact hinv p hm
              · rw [List.mem_singleton.mp hm]
                exact hginv
            obtain ⟨ha, hb⟩ := claim_C8_stop_early benv cfg innerFuel budget
              st1 count1 _ res2 n2 hexp hinv2 heqR
            subst h1
            refine ⟨ha, fun hex => ?_⟩
            obtain ⟨hlast, hlen⟩ := hb hex
            refine ⟨hlast, ?_⟩
            rw [hlen, AddResultPath_paths]
            rw [← h2]
            simp
            omega

/-- Witness for C8: on the concrete chain environment the loop stops after one
call with the single valid path recorded last. -/
theorem claim_C8_stop_early_witness :
    resC8.paths.getLast?.map (fun p => p.IsValid) = some true ∧
      resC8.paths.length = BuilderResult.initial.paths.length + 1 :=
  (claim_C8_stop_early benvC8 ⟨none, 0, 0, 0⟩ 30 10
      (mkCertPathIter envC6 certT) 0 BuilderResult.initial resC8 1 rfl
      (by intro p hp; cases hp) (by decide)).2
    ⟨validPathC8, by decide, by decide⟩

theorem pathIterMeasure_le_of_none (K D : Nat) (st : CertPathIterState)
    (c : Nat) (h : st.next_issuer = none) :
    pathIterMeasure K D st c ≤ 2 * (K + 1 - c) + 1 := by
  simp only [pathIterMeasure, h, Option.isSome_none]
  split <;> simp

theorem pathIterMeasure_ge (K D : Nat) (st : CertPathIterState) (c : Nat) :
    2 * (K + 1 - c) ≤ pathIterMeasure K D st c := by
  simp only [pathIterMeasure]
  split <;> split <;> omega

theorem measure_step_lt (K D : Nat) (st1 st2 : CertPathIterState) (c : Nat)
    (h1 : st1.next_issuer = none) (hc : c ≤ K) :
    pathIterMeasure K D st1 (c + 1) < pathIterMeasure K D st2 c := by
  have a := pathIterMeasure_le_of_none K D st1 (c + 1) h1
  have b := pathIterMeasure_ge K D st2 c
  omega

/-- With a positive iteration cap below the wrap-around point and no deadline
pressure, a GetNextPath call from any candidate-free state terminates within
K + 4 loop iterations, and a true return strictly decreases the termination
measure while preserving the invariants. -/
theorem loop_total (env : SearchEnv) (cfg : PathIterConfig)
    (hdl : deadlinePassed cfg = false)
    (hK : 0 < cfg.max_iteration_count)
    (hK2 : cfg.max_iteration_count + 1 < 2 ^ 32) :
    ∀ (fuel : Nat) (st : CertPathIterState) (count : Nat),
      st.next_issuer = none → count ≤ cfg.max_iteration_count →
      (0 < cfg.max_path_building_depth →
        st.cur_path.length ≤ cfg.max_path_building_depth) →
      cfg.max_iteration_count + 4 ≤ count + fuel →
      ∃ st1 count1 r,
        GetNextPathLoop env cfg fuel st count = some (st1, count1, r) ∧
        (r.ret = false ∨
          (r.ret = true ∧ st1.next_issuer = none ∧
            count1 ≤ cfg.max_iteration_count ∧
            (0 < cfg.max_path_building_depth →
              st1.cur_path.length ≤ cfg.max_path_building_depth) ∧
            pathIterMeasure cfg.max_iteration_count
              cfg.max_path_building_depth st1 count1 <
              pathIterMeasure cfg.max_iteration_count
                cfg.max_path_building_depth st count))
  | 0, st, count => by
    intro hni hcount hlen hfuel
    omega
  | fuel + 1, ⟨ni, cp⟩, count => by
    intro hni hcount hlen hfuel
    dsimp only at hni
    subst hni
    dsimp only at hlen
    rw [GetNextPathLoop, if_neg (by simp [hdl])]
    by_cases hdepth : 0 < cfg.max_path_building_depth ∧
        cfg.max_path_building_depth ≤ cp.length
    · -- depth limit fires: pop one level, measure drops via the depth term
      rw [if_pos hdepth]
      refine ⟨_, _, _, rfl, Or.inr ⟨rfl, rfl, hcount, ?_, ?_⟩⟩
      · intro hD
        dsimp only
        rw [List.length_tail]
        omega
      · have hlcp : cp.length = cfg.max_path_building_depth := by
          have := hlen hdepth.1
          omega
        simp only [pathIterMeasure, Option.isSome_none]
        dsimp only
        rw [if_pos hdepth, if_neg (by rw [List.length_tail]; omega)]
        simp
    · rw [if_neg hdepth]
      rcases cp with _ | ⟨back, rest⟩
      · -- empty stack: exhausted
        exact ⟨_, _, _, rfl, Or.inl rfl⟩
      · have hmod : (count + 1) % 2 ^ 32 = count + 1 :=
          Nat.mod_eq_of_lt (by omega)
        simp only [fetchNextIssuer, hmod]
        by_cases hcap : cfg.max_iteration_count < count + 1
        · -- iteration limit fires
          rw [if_pos ⟨hK, hcap⟩]
          exact ⟨_, _, _, rfl, Or.inl rfl⟩
        · rw [if_neg (by omega)]
          have hc1 : count + 1 ≤ cfg.max_iteration_count := by omega
          rcases hgni : CertIssuersIter.GetNextIssuer env back with
            ⟨back1, _ | e⟩ <;> dsimp only
          · by_cases hhad : back1.had_non_skipped_issuers = true
            · -- pure backtrack, continue the loop
              rw [if_pos hhad]
              obtain ⟨st1, count1, r, hl, hpost⟩ := loop_total env cfg hdl hK
                hK2 fuel ⟨none, rest⟩ (count + 1) rfl hc1
                (by intro hD; dsimp only; have := hlen hD; simp at this ⊢
                    omega)
                (by omega)
              refine ⟨st1, count1, r, hl, ?_⟩
              rcases hpost with hf | ⟨ht, hn1, hc2, hl2, hm⟩
              · exact Or.inl hf
              · refine Or.inr ⟨ht, hn1, hc2, hl2, ?_⟩
                exact Nat.lt_trans hm
                  (measure_step_lt _ _ ⟨none, rest⟩ _ count rfl hcount)
            · -- NoIssuersFound emission, pop one level
              rw [if_neg hhad]
              refine ⟨_, _, _, rfl, Or.inr ⟨rfl, rfl, hc1, ?_, ?_⟩⟩
              · intro hD
                dsimp only
                have := hlen hD
                simp at this
                omega
              · exact measure_step_lt _ _ ⟨none, rest⟩ _ count rfl hcount
          · -- got a candidate: classify it
            by_cases htr : (OverrideTrustForLeaf e.trust
                (⟨none, back1 :: rest⟩ :
                  CertPathIterState).cur_path.isEmpty).type =
                CertificateTrustType.UNSPECIFIED
            · rw [if_pos htr]
              by_cases hpres : (⟨none, back1 :: rest⟩ :
                  CertPathIterState).IsPresent e.cert = true
              · -- duplicate identity: skip and continue
                rw [if_pos hpres]
                obtain ⟨st1, count1, r, hl, hpost⟩ := loop_total env cfg hdl
                  hK hK2 fuel (bumpBackSkipped ⟨none, back1 :: rest⟩)
                  (count + 1) rfl hc1
                  (by intro hD
                      have hll := hlen hD
                      simp only [bumpBackSkipped,
                        CertIssuersIter.increment_skipped_issuer_count,
                        List.length_cons] at hll ⊢
                      omega)
                  (by omega)
                refine ⟨st1, count1, r, hl, ?_⟩
                rcases hpost with hf | ⟨ht, hn1, hc2, hl2, hm⟩
                · exact Or.inl hf
                · refine Or.inr ⟨ht, hn1, hc2, hl2, ?_⟩
                  exact Nat.lt_trans hm (measure_step_lt _ _ _ _ count rfl
                    hcount)
              · -- fresh identity: push and descend
                rw [if_neg hpres]
                obtain ⟨st1, count1, r, hl, hpost⟩ := loop_total env cfg hdl
                  hK hK2 fuel
                  ⟨none, mkCertIssuersIter e.cert :: back1 :: rest⟩
                  (count + 1) rfl hc1
                  (by intro hD
                      simp only [List.length_cons]
                      have h2 := fun hh => hdepth ⟨hD, hh⟩
                      have hg : (back :: rest).length = rest.length + 1 := rfl
                      rw [hg] at h2
                      omega)
                  (by omega)
                refine ⟨st1, count1, r, hl, ?_⟩
                rcases hpost with hf | ⟨ht, hn1, hc2, hl2, hm⟩
                · exact Or.inl hf
                · refine Or.inr ⟨ht, hn1, hc2, hl2, ?_⟩
                  exact Nat.lt_trans hm (measure_step_lt _ _ _ _ count rfl
                    hcount)
            · -- known trust: emit the complete path
              rw [if_neg htr]
              refine ⟨_, _, _, rfl, Or.inr ⟨rfl, rfl, hc1, ?_, ?_⟩⟩
              · intro hD
                dsimp only
                have := hlen hD
                simp at this ⊢
                omega
              · exact measure_step_lt _ _ ⟨none, back1 :: rest⟩ _ count rfl
                  hcount

/-- Any state reachable at a call boundary — the freshly initialised iterator
(pending target candidate over an empty stack) or a state left behind by a
completed call (no pending candidate) — yields a terminating GetNextPath call
that preserves the call-boundary invariants and, on a true return, strictly
decreases the termination measure. -/
theorem call_total (env : SearchEnv) (cfg : PathIterConfig)
    (hdl : deadlinePassed cfg = false)
    (hK : 0 < cfg.max_iteration_count)
    (hK2 : cfg.max_iteration_count + 1 < 2 ^ 32)
    (fuel : Nat) (st : CertPathIterState) (count : Nat)
    (hboundary : st.next_issuer = none ∨ st.cur_path = [])
    (hcount : count ≤ cfg.max_iteration_count)
    (hlen : 0 < cfg.max_path_building_depth →
      st.cur_path.length ≤ cfg.max_path_building_depth)
    (hfuel : cfg.max_iteration_count + 5 ≤ fuel) :
    ∃ st1 count1 r,
      GetNextPathLoop env cfg fuel st count = some (st1, count1, r) ∧
      (r.ret = false ∨
        (r.ret = true ∧ st1.next_issuer = none ∧
          count1 ≤ cfg.max_iteration_count ∧
          (0 < cfg.max_path_building_depth →
            st1.cur_path.length ≤ cfg.max_path_building_depth) ∧
          pathIterMeasure cfg.max_iteration_count
            cfg.max_path_building_depth st1 count1 <
            pathIterMeasure cfg.max_iteration_count
              cfg.max_path_building_depth st count)) := by
  obtain ⟨ni, cp⟩ := st
  rcases hni : ni with _ | e
  · exact loop_total env cfg hdl hK hK2 fuel ⟨none, cp⟩ count rfl hcount
      (by simpa using hlen) (by omega)
  · have hcp : cp = [] := by
      rcases hboundary with h | h
      · simp [hni] at h
      · exact h
    subst hcp
    rcases fuel with _ | fuel
    · omega
    rw [GetNextPathLoop, if_neg (by simp [hdl]),
      if_neg (by intro hcon; simp at hcon; omega)]
    dsimp only
    by_cases htr : (OverrideTrustForLeaf e.trust
        (⟨none, ([] : List CertIssuersIter)⟩ :
          CertPathIterState).cur_path.isEmpty).type =
        CertificateTrustType.UNSPECIFIED
    · rw [if_pos htr]
      have hpres : (⟨none, ([] : List CertIssuersIter)⟩ :
          CertPathIterState).IsPresent e.cert = false := rfl
      rw [if_neg (by rw [hpres]; exact Bool.false_ne_true)]
      obtain ⟨st1, count1, r, hl, hpost⟩ := loop_total env cfg hdl hK hK2
        fuel ⟨none, [mkCertIssuersIter e.cert]⟩ count rfl hcount
        (by intro hD; simpa using hD) (by omega)
      refine ⟨st1, count1, r, hl, ?_⟩
      rcases hpost with hf | ⟨ht, hn1, hc2, hl2, hm⟩
      · exact Or.inl hf
      · refine Or.inr ⟨ht, hn1, hc2, hl2, ?_⟩
        refine Nat.lt_of_lt_of_le hm ?_
        have ha := pathIterMeasure_le_of_none cfg.max_iteration_count
          cfg.max_path_building_depth ⟨none, [mkCertIssuersIter e.cert]⟩
          count rfl
        have hb := pathIterMeasure_ge cfg.max_iteration_count
          cfg.max_path_building_depth ⟨some e, []⟩ count
        have hpend : pathIterMeasure cfg.max_iteration_count
            cfg.max_path_building_depth ⟨some e, []⟩ count =
            2 * (cfg.max_iteration_count + 1 - count) + 1 := by
          simp [pathIterMeasure]
          omega
        omega
    · rw [if_neg htr]
      refine ⟨_, _, _, rfl, Or.inr ⟨rfl, rfl, hcount, by simp, ?_⟩⟩
      have hpend : pathIterMeasure cfg.max_iteration_count
          cfg.max_path_building_depth ⟨some e, []⟩ count =
          2 * (cfg.max_iteration_count + 1 - count) + 1 := by
        simp [pathIterMeasure]
        omega
      have h1 : pathIterMeasure cfg.max_iteration_count
          cfg.max_path_building_depth ⟨none, ([] : List CertIssuersIter)⟩
          count = 2 * (cfg.max_iteration_count + 1 - count) := by
        simp [pathIterMeasure]
        omega
      omega

/-- Repeatedly calling GetNextPath from a call-boundary state returns false
within measure-many calls when the iteration cap is positive and below the
32-bit wrap-around. -/
theorem callsToFalse_total (env : SearchEnv) (cfg : PathIterConfig)
    (hdl : deadlinePassed cfg = false)
    (hK : 0 < cfg.max_iteration_count)
    (hK2 : cfg.max_iteration_count + 1 < 2 ^ 32) :
    ∀ (budget : Nat) (st : CertPathIterState) (count : Nat),
      (st.next_issuer = none ∨ st.cur_path = []) →
      count ≤ cfg.max_iteration_count →
      (0 < cfg.max_path_building_depth →
        st.cur_path.length ≤ cfg.max_path_building_depth) →
      pathIterMeasure cfg.max_iteration_count cfg.max_path_building_depth
        st count + 1 ≤ budget →
      ∃ n, callsToFalse env cfg (cfg.max_iteration_count + 5) budget st
          count = some n ∧ n ≤ budget
  | 0, st, count => by
    intro _ _ _ hbudget
    have := pathIterMeasure_ge cfg.max_iteration_count
      cfg.max_path_building_depth st count
    omega
  | budget + 1, st, count => by
    intro hboundary hcount hlen hbudget
    obtain ⟨st1, count1, r, hl, hpost⟩ := call_total env cfg hdl hK hK2
      (cfg.max_iteration_count + 5) st count hboundary hcount hlen
      (by omega)
    rcases hpost with hf | ⟨ht, hn1, hc2, hl2, hm⟩
    · refine ⟨1, ?_, by omega⟩
      rw [callsToFalse, hl]
      dsimp only
      rw [if_neg (by rw [hf]; exact Bool.false_ne_true)]
    · obtain ⟨n, hn, hnb⟩ := callsToFalse_total env cfg hdl hK hK2 budget
        st1 count1 (Or.inl hn1) hc2 hl2 (by omega)
      refine ⟨n + 1, ?_, by omega⟩
      rw [callsToFalse, hl]
      dsimp only
      rw [if_pos ht, hn]
      rfl

theorem chain_GetNextIssuer (k : Nat) :
    CertIssuersIter.GetNextIssuer envChain (mkCertIssuersIter (chainCert k)) =
      (iterConsumed k, some (chainEntry k)) := rfl

theorem consumedChain_no_key :
    ∀ k m, k ≤ m →
      CertPathIterState.IsPresent ⟨none, consumedChain k⟩ (chainCert m) =
        false
  | 0, m, _ => rfl
  | k + 1, m, h => by
    have ih := consumedChain_no_key k m (by omega)
    simp only [CertPathIterState.IsPresent, consumedChain, List.any_cons]
      at ih ⊢
    rw [ih]
    simp [iterConsumed, chainCert, GetKey]
    omega

theorem chainState_IsPresent (k : Nat) :
    CertPathIterState.IsPresent ⟨none, iterConsumed k :: consumedChain k⟩
      (chainCert (k + 1)) = false := by
  have ih := consumedChain_no_key k (k + 1) (by omega)
  simp only [CertPathIterState.IsPresent, List.any_cons] at ih ⊢
  rw [ih]
  simp [iterConsumed, chainCert, GetKey]

theorem chain_step (fuel k count : Nat) :
    GetNextPathLoop envChain cfgWrap (fuel + 1) (chainState k) count =
      GetNextPathLoop envChain cfgWrap fuel (chainState (k + 1))
        ((count + 1) % 2 ^ 32) := by
  rw [GetNextPathLoop]
  rw [if_neg (by decide)]
  rw [if_neg (by rintro ⟨h, -⟩; revert h; decide)]
  show (match fetchNextIssuer envChain cfgWrap (chainState k) count with
    | FetchOutcome.out st1 count1 r => some (st1, count1, r)
    | FetchOutcome.backtrack st1 count1 =>
        GetNextPathLoop envChain cfgWrap fuel st1 count1
    | FetchOutcome.candidate st1 count1 e =>
      let trust := OverrideTrustForLeaf e.trust st1.cur_path.isEmpty
      if trust.type = CertificateTrustType.UNSPECIFIED then
        if st1.IsPresent e.cert then
          GetNextPathLoop envChain cfgWrap fuel (bumpBackSkipped st1) count1
        else
          GetNextPathLoop envChain cfgWrap fuel
            { st1 with cur_path := mkCertIssuersIter e.cert :: st1.cur_path }
            count1
      else
        some (st1, count1,
          { ret := true, out_certs := st1.CopyPath ++ [e.cert],
            out_last_cert_trust := trust,
            out_errors := CertPathErrors.empty })) = _
  have hmodlt : (count + 1) % 2 ^ 32 < 2 ^ 32 :=
    Nat.mod_lt _ (by norm_num)
  simp only [chainState, fetchNextIssuer]
  rw [if_neg (by
    rintro ⟨-, h⟩
    have : cfgWrap.max_iteration_count = 2 ^ 32 - 1 := rfl
    omega)]
  rw [chain_GetNextIssuer k]
  dsimp only
  have hov : (OverrideTrustForLeaf (chainEntry k).trust
      (iterConsumed k :: consumedChain k).isEmpty).type =
      CertificateTrustType.UNSPECIFIED := rfl
  rw [if_pos hov]
  have hpres : (⟨none, iterConsumed k :: consumedChain k⟩ :
      CertPathIterState).IsPresent (chainEntry k).cert = false :=
    chainState_IsPresent k
  rw [if_neg (by rw [hpres]; exact Bool.false_ne_true)]
  rfl

theorem chain_loop_none :
    ∀ (fuel k count : Nat),
      GetNextPathLoop envChain cfgWrap fuel (chainState k) count = none
  | 0, _, _ => rfl
  | fuel + 1, k, count => by
    rw [chain_step]
    exact chain_loop_none fuel (k + 1) _

theorem chain_first_step (fuel count : Nat) :
    GetNextPathLoop envChain cfgWrap (fuel + 1)
      (mkCertPathIter envChain (chainCert 0)) count =
      GetNextPathLoop envChain cfgWrap fuel (chainState 0) count := by
  rw [GetNextPathLoop]
  rw [if_neg (by decide)]
  rw [if_neg (by rintro ⟨h, -⟩; revert h; decide)]
  rfl

/-- C5 (counterexample): with the iteration cap set to 2^32 - 1, the value at
which the uint32 iteration counter wraps, the limit check can never fire, and
against an issuer-source family that mints a fresh issuer for every query the
very first GetNextPath call never returns, however much fuel it is given; so
the claim's guarantee does not hold for every positive
max_iteration_count. -/
theorem claim_C5_counterexample :
    0 < cfgWrap.max_iteration_count ∧
    ¬ ∃ (fuel : Nat) (res : CertPathIterState × Nat × PathStepOut),
        GetNextPathLoop envChain cfgWrap fuel
          (mkCertPathIter envChain (chainCert 0)) 0 = some res := by
  refine ⟨by decide, ?_⟩
  rintro ⟨fuel, res, h⟩
  rcases fuel with _ | fuel
  · exact Option.noConfusion h
  · rw [chain_first_step, chain_loop_none] at h
    exact Option.noConfusion h

/-- C5 (amended): if the iteration cap K is positive and below the uint32
wrap-around value (K + 1 < 2^32) and no deadline is set, then (1) from any
freshly initialised iterator the sequence of GetNextPath calls reaches a
false return within 2K + 4 calls, each call terminating within K + 5 loop
iterations; (2) whenever the incremented counter exceeds the positive cap,
the call returns false immediately with kIterationLimitExceeded in the
path-global errors and leaves the stack untouched; (3) concretely, for the
two-certificate issuer cycle A ↔ B with cap 100, the first call returns the
partial path [A, B] carrying kNoIssuersFound and the second call returns
false: exhaustion, not the iteration limit, ends this bounded cycle because
each distinct identity is pushed at most once. -/
theorem claim_C5_iteration_cap :
    (∀ (env : SearchEnv) (target : ParsedCertificate) (now K D : Nat),
      0 < K → K + 1 < 2 ^ 32 →
      ∃ n, callsToFalse env ⟨none, now, K, D⟩ (K + 5) (2 * K + 4)
          (mkCertPathIter env target) 0 = some n ∧ n ≤ 2 * K + 4) ∧
    (∀ (env : SearchEnv) (cfg : PathIterConfig) (fuel count : Nat)
      (back : CertIssuersIter) (rest : List CertIssuersIter),
      deadlinePassed cfg = false →
      ¬(0 < cfg.max_path_building_depth ∧
        cfg.max_path_building_depth ≤ (back :: rest).length) →
      0 < cfg.max_iteration_count →
      cfg.max_iteration_count < (count + 1) % 2 ^ 32 →
      GetNextPathLoop env cfg (fuel + 1) ⟨none, back :: rest⟩ count =
        some (⟨none, back :: rest⟩, (count + 1) % 2 ^ 32,
          ⟨false, CertPathIterState.CopyPath ⟨none, back :: rest⟩,
            CertificateTrust.ForUnspecified,
            CertPathErrors.empty.AddOtherError .kIterationLimitExceeded⟩)) ∧
    ((GetNextPathLoop envCycle cfgK 50 (mkCertPathIter envCycle certA) 0).map
        (fun x => (x.2.1, x.2.2)) =
      some (3, ⟨true, [certA, certB], ⟨.UNSPECIFIED⟩,
        ⟨[(1, ⟨.kNoIssuersFound, true⟩)], []⟩⟩) ∧
      callsToFalse envCycle cfgK 50 10 (mkCertPathIter envCycle certA) 0 =
        some 2) := by
  refine ⟨?_, ?_, by decide, by decide⟩
  · intro env target now K D hK hK2
    have hdl : deadlinePassed ⟨none, now, K, D⟩ = false := rfl
    have h := callsToFalse_total env ⟨none, now, K, D⟩ hdl hK hK2
      (2 * K + 4) (mkCertPathIter env target) 0 (Or.inr rfl)
      (by omega) (by intro hD; simp [mkCertPathIter])
      (by simp [pathIterMeasure, mkCertPathIter]; split <;> omega)
    exact h
  · intro env cfg fuel count back rest hdl hdepth hK hcap
    rw [GetNextPathLoop, if_neg (by simp [hdl]), if_neg hdepth]
    show (match fetchNextIssuer env cfg ⟨none, back :: rest⟩ count with
      | FetchOutcome.out st1 count1 r => some (st1, count1, r)
      | FetchOutcome.backtrack st1 count1 =>
          GetNextPathLoop env cfg fuel st1 count1
      | FetchOutcome.candidate st1 count1 e =>
        let trust := OverrideTrustForLeaf e.trust st1.cur_path.isEmpty
        if trust.type = CertificateTrustType.UNSPECIFIED then
          if st1.IsPresent e.cert then
            GetNextPathLoop env cfg fuel (bumpBackSkipped st1) count1
          else
            GetNextPathLoop env cfg fuel
              { st1 with
                cur_path := mkCertIssuersIter e.cert :: st1.cur_path }
              count1
        else
          some (st1, count1,
            { ret := true, out_certs := st1.CopyPath ++ [e.cert],
              out_last_cert_trust := trust,
              out_errors := CertPathErrors.empty })) = _
    simp only [fetchNextIssuer]
    rw [if_pos ⟨hK, hcap⟩]

/-- Witness: the amended C5 theorem applied to the A ↔ B cycle with cap 100
(part 1 yields a defined call count) and to a one-iterator stack with cap 3
and counter 5 (part 2 yields the immediate iteration-limit return). -/
theorem claim_C5_iteration_cap_witness :
    (callsToFalse envCycle ⟨none, 0, 100, 0⟩ 105 204
        (mkCertPathIter envCycle certA) 0).isSome = true ∧
    GetNextPathLoop envCycle ⟨none, 0, 3, 0⟩ 1
        ⟨none, [mkCertIssuersIter certA]⟩ 5 =
      some (⟨none, [mkCertIssuersIter certA]⟩, 6,
        ⟨false, [certA], CertificateTrust.ForUnspecified,
          CertPathErrors.empty.AddOtherError .kIterationLimitExceeded⟩) := by
  constructor
  · obtain ⟨n, hn, -⟩ := claim_C5_iteration_cap.1 envCycle certA 0 100 0
      (by norm_num) (by norm_num)
    rw [hn]
    rfl
  · have h := claim_C5_iteration_cap.2.1 envCycle ⟨none, 0, 3, 0⟩ 0 5
      (mkCertIssuersIter certA) [] rfl (by rintro ⟨h, -⟩; revert h; decide)
      (by decide) (by decide)
    exact h

end PathBuilder
